import Mathlib

/-!
# Swan scheduler core: application registry, launch preparation, kill

A shallow embedding of

* `src/manager/scheduler/memory_store.go` (the in-memory application registry),
* `src/manager/state/task.go` (`NewTask`, `PrepareTaskInfo`, `Kill`).

Conventions of the embedding.

* A Go `map[string]V` is an association list with pairwise distinct keys
  (`GoMap V`).  Go leaves the order of a `range` loop over a map unspecified;
  that choice is an explicit argument of type `RangeOrder`.
* Pointers to structs are modelled by the struct they point to; `nil` is
  modelled (as `Option`) only where the source tests for it.
* `int64` values are integers; arithmetic that can overflow is wrapped
  explicitly (`wrap64`).
* The lock of the registry is not modelled: each operation is the state
  transformation performed inside its critical section.
-/

namespace Swan

/-! ## Go maps -/

/-- Go `map[string]V`: finitely many entries, keys pairwise distinct. -/
abbrev GoMap (V : Type) := AList (fun _ : String => V)

/-- The order in which one `for k, v := range m` loop visits the entries `l`
of a map: any rearrangement of the entries. -/
structure RangeOrder {α : Type} (l : List α) where
  /-- The entries in the order visited. -/
  order : List α
  /-- Every entry is visited exactly once. -/
  perm : order.Perm l

/-- The iteration order that happens to follow the stored order. -/
def RangeOrder.id {α : Type} (l : List α) : RangeOrder l :=
  ⟨l, List.Perm.refl l⟩

/-! ## Domain types (package `types`, declared outside the excerpt)

Only the fields that the two source files read are kept. -/

/-- Go `types.Parameter`: one container runtime parameter. -/
structure Parameter where
  Key : String
  Value : String
deriving DecidableEq, Repr

/-- Go `types.KillPolicy`; `Duration` is an `int64` number of milliseconds. -/
structure KillPolicy where
  Duration : Int
deriving DecidableEq, Repr

/-- Go `types.PortMapping`. -/
structure PortMapping where
  ContainerPort : Nat
  Name : String
  Protocol : String
deriving DecidableEq, Repr

/-- Go `types.Volume`. -/
structure Volume where
  ContainerPath : String
  HostPath : String
  Mode : String
deriving DecidableEq, Repr

/-- Go `types.HealthCheck`, kept opaque. -/
structure HealthCheck where
  Protocol : String
  Path : String
deriving DecidableEq, Repr

/-- Go `types.Docker`. -/
structure Docker where
  Image : String
  Network : String
  Parameters : List Parameter
  PortMappings : List PortMapping
  Privileged : Bool
  ForcePullImage : Bool
deriving DecidableEq, Repr

/-- Go `types.Container`. -/
structure Container where
  Docker : Docker
  Volumes : List Volume
deriving DecidableEq, Repr

/-- Go `types.Version`. `KillPolicy` and `HealthCheck` are pointers that the
source compares with `nil`. -/
structure Version where
  RunAs : String
  Command : String
  Args : List String
  CPUs : Nat
  Mem : Nat
  Disk : Nat
  Container : Container
  Labels : GoMap String
  Env : GoMap String
  URIs : List String
  HealthCheck : Option HealthCheck
  KillPolicy : Option KillPolicy
deriving DecidableEq

/-- Go `state.App` (declared outside the excerpt). `Updated` is a `time.Time`,
taken as a count of nanoseconds; `fixed` stands for the networking mode that
`IsFixed` tests. -/
structure App where
  ID : String
  Name : String
  ClusterID : String
  CurrentVersion : Version
  fixed : Bool
  Updated : Int
deriving DecidableEq

/-- Modelled from the spec: `App.IsFixed` is missing from the excerpt; the
application carries a "fixed-IP networking flag" and `IsFixed` reports it. -/
def App.IsFixed (app : App) : Bool := app.fixed

/-! ## `memory_store.go` -/

/-- Go `memoryStore`: the map `s` (the embedded `sync.RWMutex` is not
modelled). -/
structure memoryStore where
  s : GoMap App

/-- Go `NewMemoryStore`. -/
def NewMemoryStore : memoryStore := ⟨∅⟩

/-- Go `memoryStore.Add`: `m.s[id] = app`. -/
def memoryStore.Add (m : memoryStore) (id : String) (app : App) : memoryStore :=
  ⟨m.s.insert id app⟩

/-- Go `memoryStore.Get`: `res = m.s[id]`; `none` is the `nil` result. -/
def memoryStore.Get (m : memoryStore) (id : String) : Option App :=
  m.s.lookup id

/-- Go `memoryStore.Delete`: `delete(m.s, id)`. -/
def memoryStore.Delete (m : memoryStore) (id : String) : memoryStore :=
  ⟨m.s.erase id⟩

/-- Go `memoryStore.Data`: the backing map itself. -/
def memoryStore.Data (m : memoryStore) : GoMap App := m.s

/-- Go `labels.Selector` and `fields.Selector` (packages `utils/labels` and
`utils/fields`): interfaces whose method `Matches` decides a set of key/value
pairs. The evaluator is arbitrary. -/
structure Selector where
  Matches : GoMap String → Bool

/-- Go `types.AppFilterOptions`; `none` is the `nil` interface value. -/
structure AppFilterOptions where
  LabelsSelector : Option Selector
  FieldsSelector : Option Selector

/-- Go `filterByLabelsSelectors`. -/
def filterByLabelsSelectors (labelsSelector : Option Selector)
    (appLabels : GoMap String) : Bool :=
  match labelsSelector with
  | none => true
  | some sel => sel.Matches appLabels

/-- Go `filterByFieldsSelectors`: the field map holds the single entry
`runAs`. -/
def filterByFieldsSelectors (fieldSelector : Option Selector) (app : App) : Bool :=
  match fieldSelector with
  | none => true
  | some sel =>
    let fieldMap : GoMap String := (∅ : GoMap String).insert "runAs" app.CurrentVersion.RunAs
    sel.Matches fieldMap

/-- Modelled from the spec: the ordering `state.AppsByUpdated` is declared
outside the excerpt; the result of `Filter` "is sorted by
most-recently-updated-first", so element `a` goes before element `b` when `a`
was updated after `b`. -/
def AppsByUpdated.Less (a b : App) : Bool := decide (b.Updated < a.Updated)

/-- Go standard library `sort.Sort`, by its documented contract: the result
is a rearrangement of the input in which no element is `Less` than an element
placed before it. The sort is not stable: the contract leaves open how
elements are arranged when neither is `Less` than the other. -/
structure Sorter where
  sort : List App → List App
  perm : ∀ l, (sort l).Perm l
  sorted : ∀ l, (sort l).Pairwise (fun a b => AppsByUpdated.Less b a = false)

/-- Insertion sort, the algorithm `sort.Sort` runs on slices of fewer than
twelve elements; it satisfies the contract. -/
def insertionSorter : Sorter where
  sort := List.insertionSort (fun a b => AppsByUpdated.Less b a = false)
  perm := List.perm_insertionSort _
  sorted := by
    intro l
    have : IsTotal App (fun a b => AppsByUpdated.Less b a = false) :=
      ⟨fun a b => by simp only [AppsByUpdated.Less, decide_eq_false_iff_not]; omega⟩
    have : IsTrans App (fun a b => AppsByUpdated.Less b a = false) :=
      ⟨fun a b c => by simp only [AppsByUpdated.Less, decide_eq_false_iff_not]; omega⟩
    exact List.sorted_insertionSort _ l

/-- Go `memoryStore.Filter`. The loop visits the map in the order `it`; an
application failing either selector is skipped (`continue`), the others are
appended to `apps`; `apps` is then sorted. -/
def memoryStore.Filter (m : memoryStore) (options : AppFilterOptions)
    (srt : Sorter) (it : RangeOrder m.s.entries) : List App :=
  let apps := it.order.foldl
    (fun (apps : List App) e =>
      if !filterByLabelsSelectors options.LabelsSelector e.2.CurrentVersion.Labels then apps
      else if !filterByFieldsSelectors options.FieldsSelector e.2 then apps
      else apps ++ [e.2])
    []
  srt.sort apps

/-- The applications held by the registry, one per stored id. -/
def memoryStore.apps (m : memoryStore) : List App := m.s.entries.map (fun e => e.2)

/-- The condition of claim C3 in the words of the specification: the label
selector is absent or matches the labels of the current version, and the field
selector is absent or matches the field set with the single entry `runAs`. -/
def selected (options : AppFilterOptions) (a : App) : Bool :=
  (options.LabelsSelector.all (fun sel => sel.Matches a.CurrentVersion.Labels)) &&
  (options.FieldsSelector.all
    (fun sel => sel.Matches ((∅ : GoMap String).insert "runAs" a.CurrentVersion.RunAs)))

/-! ## `task.go`: types -/

/-- Go `state.Slot` (declared outside the excerpt): the fields that `task.go`
reads. `Index` is a Go `int`. -/
structure Slot where
  ID : String
  Index : Int
  Ip : String
  App : App
  Version : Version
deriving DecidableEq

/-- Go `mesos.Label`. -/
structure mesos.Label where
  Key : String
  Value : String
deriving DecidableEq, Repr

/-- Go `mesos.Parameter`. -/
structure mesos.Parameter where
  Key : String
  Value : String
deriving DecidableEq, Repr

/-- Go `mesos.Resource`, as a name and a scalar amount. -/
structure mesos.Resource where
  Name : String
  Amount : Nat
deriving DecidableEq, Repr

/-- Go `mesos.TaskInfo`, the launch descriptor, flattened to the parts the
builder fills in. -/
structure mesos.TaskInfo where
  Name : String
  TaskId : String
  AgentId : String
  Resources : List mesos.Resource
  Command : String
  Args : List String
  ContainerType : String
  Image : String
  Privileged : Bool
  ForcePullImage : Bool
  Volumes : List Volume
  Environment : List (String × String)
  URIs : List String
  Labels : List mesos.Label
  Parameters : List mesos.Parameter
  Network : String
  HealthCheck : Option HealthCheck
deriving DecidableEq

/-- Go `state.TaskBuilder` (declared outside the excerpt): the descriptor
under construction and the host ports assigned so far. The builder is created
for a task; `mappings` are the port mappings which that task's slot
declares. -/
structure TaskBuilder where
  taskInfo : mesos.TaskInfo
  HostPorts : List Nat
  mappings : List PortMapping
deriving DecidableEq

/-- Go `state.Task`. `Created` and `ArchivedAt` are `time.Time` values, taken
as counts of nanoseconds. -/
structure Task where
  ID : String
  Version : Version
  Slot : Slot
  State : String
  Stdout : String
  Stderr : String
  HostPorts : List Nat
  OfferID : String
  AgentID : String
  Ip : String
  AgentHostName : String
  Reason : String
  Message : String
  Source : String
  ContainerId : String
  ContainerName : String
  Created : Int
  ArchivedAt : Int
  taskBuilder : Option TaskBuilder
deriving DecidableEq

/-- Go `mesos.Offer`: the identities that `PrepareTaskInfo` reads. -/
structure mesos.Offer where
  Id : String
  AgentId : String
deriving DecidableEq, Repr

/-- Go `state.OfferWrapper` (declared outside the excerpt): an offer and its
remaining ports. -/
structure OfferWrapper where
  Offer : mesos.Offer
  portsRemain : List Nat
deriving DecidableEq, Repr

/-- Modelled from the spec: `OfferWrapper.PortsRemain` is missing from the
excerpt; it is the offer's "ports remaining" view. -/
def OfferWrapper.PortsRemain (ow : OfferWrapper) : List Nat := ow.portsRemain

/-- Modelled from the spec: `Slot.ResourcesNeeded` is missing from the
excerpt; the resources allocated are the CPU, memory and disk that the
version requires. -/
def Slot.ResourcesNeeded (slot : Slot) : List mesos.Resource :=
  [⟨"cpus", slot.Version.CPUs⟩, ⟨"mem", slot.Version.Mem⟩, ⟨"disk", slot.Version.Disk⟩]

/-! ## `task.go`: `NewTask` -/

/-- Go `uuid.UUID` (package `satori/go.uuid`): sixteen bytes. -/
structure UUID where
  bytes : List (Fin 256)
  size : bytes.length = 16

/-- Go `encoding/hex`: the digit table `hextable`. -/
def hextable : String := "0123456789abcdef"

/-- The hexadecimal digit for a value below sixteen, `hextable[n]`. -/
def hexDigit (n : Nat) : Char := hextable.data.getD n '0'

/-- Go `hex.Encode`: two digits per byte, `hextable[v>>4]` then
`hextable[v&0x0f]`. -/
def hexEncode (src : List (Fin 256)) : List Char :=
  src.flatMap (fun v => [hexDigit (v.val / 16), hexDigit (v.val % 16)])

/-- Go `UUID.String`: the canonical form
`xxxxxxxx-xxxx-xxxx-xxxx-xxxxxxxxxxxx`, the bytes `u[0:4]`, `u[4:6]`,
`u[6:8]`, `u[8:10]`, `u[10:]` in hexadecimal with a dash between the groups. -/
def UUID.String (u : UUID) : String :=
  String.mk
    (hexEncode (u.bytes.take 4) ++ '-' ::
      (hexEncode ((u.bytes.drop 4).take 2) ++ '-' ::
        (hexEncode ((u.bytes.drop 6).take 2) ++ '-' ::
          (hexEncode ((u.bytes.drop 8).take 2) ++ '-' ::
            hexEncode (u.bytes.drop 10)))))

/-- Go `strings.Replace(s, "-", "", -1)`: every occurrence of the
one-character string `-` is removed. -/
def removeDashes (s : String) : String :=
  String.mk (s.data.filter (fun c => c != '-'))

/-- Go `NewTask`. The random `uuid.NewV4()` and the clock reading
`time.Now()` are arguments; fields not named in the composite literal hold
their zero value. `fmt.Sprintf("%s-%s", a, b)` is `a ++ "-" ++ b`. -/
def NewTask (version : Version) (slot : Slot) (id : UUID) (now : Int) : Task where
  ID := slot.ID ++ "-" ++ removeDashes id.String
  Version := version
  Slot := slot
  Ip := slot.Ip
  HostPorts := []
  Created := now
  State := ""
  Stdout := ""
  Stderr := ""
  OfferID := ""
  AgentID := ""
  AgentHostName := ""
  Reason := ""
  Message := ""
  Source := ""
  ContainerId := ""
  ContainerName := ""
  ArchivedAt := 0
  taskBuilder := none

/-! ## `task.go`: the launch spec builder

The methods of `TaskBuilder` live in a file outside the excerpt. -/

/-- Modelled from the spec: `NewTaskBuilder` is missing from the excerpt; the
builder starts from a descriptor with nothing set and no host port. -/
def NewTaskBuilder (task : Task) : TaskBuilder :=
  ⟨⟨"", "", "", [], "", [], "", "", false, false, [], [], [], [], [], "", none⟩, [],
    task.Slot.Version.Container.Docker.PortMappings⟩

/-- Modelled from the spec: `SetName` is missing from the excerpt; it sets the
launch name. -/
def TaskBuilder.SetName (b : TaskBuilder) (name : String) : TaskBuilder :=
  { b with taskInfo := { b.taskInfo with Name := name } }

/-- Modelled from the spec: `SetTaskId` is missing from the excerpt; it sets
the launch ID. -/
def TaskBuilder.SetTaskId (b : TaskBuilder) (id : String) : TaskBuilder :=
  { b with taskInfo := { b.taskInfo with TaskId := id } }

/-- Modelled from the spec: `SetAgentId` is missing from the excerpt; it sets
the target agent identity. -/
def TaskBuilder.SetAgentId (b : TaskBuilder) (id : String) : TaskBuilder :=
  { b with taskInfo := { b.taskInfo with AgentId := id } }

/-- Modelled from the spec: `SetResources` is missing from the excerpt; it
records the allocated resources. -/
def TaskBuilder.SetResources (b : TaskBuilder) (rs : List mesos.Resource) : TaskBuilder :=
  { b with taskInfo := { b.taskInfo with Resources := rs } }

/-- Modelled from the spec: `SetCommand` is missing from the excerpt; it sets
command and arguments verbatim. -/
def TaskBuilder.SetCommand (b : TaskBuilder) (cmd : String) (args : List String) :
    TaskBuilder :=
  { b with taskInfo := { b.taskInfo with Command := cmd, Args := args } }

/-- Modelled from the spec: `SetContainerType` is missing from the excerpt; it
fixes the runtime type. -/
def TaskBuilder.SetContainerType (b : TaskBuilder) (ty : String) : TaskBuilder :=
  { b with taskInfo := { b.taskInfo with ContainerType := ty } }

/-- Modelled from the spec: `SetContainerDockerImage` is missing from the
excerpt; it sets the image. -/
def TaskBuilder.SetContainerDockerImage (b : TaskBuilder) (image : String) : TaskBuilder :=
  { b with taskInfo := { b.taskInfo with Image := image } }

/-- Modelled from the spec: `SetContainerDockerPrivileged` is missing from the
excerpt; it sets the privileged flag. -/
def TaskBuilder.SetContainerDockerPrivileged (b : TaskBuilder) (flag : Bool) : TaskBuilder :=
  { b with taskInfo := { b.taskInfo with Privileged := flag } }

/-- Modelled from the spec: `SetContainerDockerForcePullImage` is missing from
the excerpt; it sets the force-pull flag. -/
def TaskBuilder.SetContainerDockerForcePullImage (b : TaskBuilder) (flag : Bool) :
    TaskBuilder :=
  { b with taskInfo := { b.taskInfo with ForcePullImage := flag } }

/-- Modelled from the spec: `AppendContainerDockerVolumes` is missing from the
excerpt; it appends the volume mounts. -/
def TaskBuilder.AppendContainerDockerVolumes (b : TaskBuilder) (vs : List Volume) :
    TaskBuilder :=
  { b with taskInfo := { b.taskInfo with Volumes := b.taskInfo.Volumes ++ vs } }

/-- Modelled from the spec: `AppendContainerDockerEnvironments` is missing
from the excerpt; it appends the environment variables of the map, visited in
the order `it`. -/
def TaskBuilder.AppendContainerDockerEnvironments (b : TaskBuilder) (env : GoMap String)
    (it : RangeOrder env.entries) : TaskBuilder :=
  { b with taskInfo := { b.taskInfo with
      Environment := b.taskInfo.Environment ++ it.order.map (fun e => (e.1, e.2)) } }

/-- Modelled from the spec: `SetURIs` is missing from the excerpt; it sets the
URIs to fetch. -/
def TaskBuilder.SetURIs (b : TaskBuilder) (uris : List String) : TaskBuilder :=
  { b with taskInfo := { b.taskInfo with URIs := uris } }

/-- Modelled from the spec: `AppendTaskInfoLabels` is missing from the
excerpt; it appends one structured label per entry of the map ("append the
Version's user-defined labels, then append the default labels"), the entries
visited in the order `it`. -/
def TaskBuilder.AppendTaskInfoLabels (b : TaskBuilder) (labelMap : GoMap String)
    (it : RangeOrder labelMap.entries) : TaskBuilder :=
  { b with taskInfo := { b.taskInfo with
      Labels := b.taskInfo.Labels ++ it.order.map (fun e => ⟨e.1, e.2⟩) } }

/-- Modelled from the spec: `AppendContainerDockerParameters` is missing from
the excerpt; it appends one runtime parameter per element of the slice, in
order. -/
def TaskBuilder.AppendContainerDockerParameters (b : TaskBuilder)
    (parameters : List Parameter) : TaskBuilder :=
  { b with taskInfo := { b.taskInfo with
      Parameters := b.taskInfo.Parameters ++ parameters.map (fun q => ⟨q.Key, q.Value⟩) } }

/-- Modelled from the spec: `SetNetwork` is missing from the excerpt; it sets
the networking mode and assigns host ports out of the remaining ports of the
offer, one per declared port mapping. -/
def TaskBuilder.SetNetwork (b : TaskBuilder) (network : String)
    (portsAvailable : List Nat) : TaskBuilder :=
  { b with
    taskInfo := { b.taskInfo with Network := network },
    HostPorts := portsAvailable.take b.mappings.length }

/-- Modelled from the spec: `SetHealthCheck` is missing from the excerpt; it
attaches the health check. -/
def TaskBuilder.SetHealthCheck (b : TaskBuilder) (hc : HealthCheck) : TaskBuilder :=
  { b with taskInfo := { b.taskInfo with HealthCheck := some hc } }

/-! ## `task.go`: `PrepareTaskInfo` -/

/-- Go `strconv.Itoa`: the decimal rendering of an `int`. -/
def Itoa (i : Int) : String :=
  match i with
  | Int.ofNat n => Nat.repr n
  | Int.negSucc n => "-" ++ Nat.repr (n + 1)

/-- The map `defaultLabels` that `PrepareTaskInfo` fills with seven
assignments. -/
def defaultLabels (task : Task) : GoMap String :=
  (((((((∅ : GoMap String).insert "DM_USER" task.Slot.Version.RunAs).insert
    "DM_CLUSTER" task.Slot.App.ClusterID).insert
    "DM_SLOT_INDEX" (Itoa task.Slot.Index)).insert
    "DM_SLOT_ID" task.Slot.ID).insert
    "DM_TASK_ID" task.ID).insert
    "DM_APP_NAME" task.Slot.App.Name).insert
    "DM_APP_ID" task.Slot.App.ID

/-- The iteration orders taken by the four `range` loops over maps that one
run of `PrepareTaskInfo` performs. -/
structure RangeOrders (task : Task) where
  /-- Loop of `AppendContainerDockerEnvironments(versionSpec.Env)`. -/
  env : RangeOrder task.Slot.Version.Env.entries
  /-- Loop of `AppendTaskInfoLabels(versionSpec.Labels)`. -/
  userLabels : RangeOrder task.Slot.Version.Labels.entries
  /-- Loop of `AppendTaskInfoLabels(defaultLabels)`. -/
  structured : RangeOrder (defaultLabels task).entries
  /-- Loop `for k, v := range defaultLabels` of `PrepareTaskInfo` itself. -/
  mirror : RangeOrder (defaultLabels task).entries

/-- The orders that follow the stored order of each map. -/
def RangeOrders.id (task : Task) : RangeOrders task :=
  ⟨RangeOrder.id _, RangeOrder.id _, RangeOrder.id _, RangeOrder.id _⟩

/-- The runtime parameter built in the body of the mirroring loop:
`Key: "label", Value: fmt.Sprintf("%s=%s", k, v)`. -/
def labelParameter (k v : String) : Parameter := ⟨"label", k ++ "=" ++ v⟩

/-- Go `Task.PrepareTaskInfo`. Returns the descriptor `taskBuilder.taskInfo`
together with the task after the two assignments to `task.taskBuilder` and
`task.HostPorts`. The log line is omitted. -/
def Task.PrepareTaskInfo (task : Task) (ow : OfferWrapper) (it : RangeOrders task) :
    mesos.TaskInfo × Task :=
  let labels := defaultLabels task
  let offer := ow.Offer
  let versionSpec := task.Slot.Version
  let containerSpec := task.Slot.Version.Container
  let dockerSpec := task.Slot.Version.Container.Docker
  let b := NewTaskBuilder task
  let b := ((b.SetName task.Slot.ID).SetTaskId task.ID).SetAgentId offer.AgentId
  let b := b.SetResources task.Slot.ResourcesNeeded
  let b := b.SetCommand task.Slot.Version.Command task.Slot.Version.Args
  let b := ((((b.SetContainerType "docker").SetContainerDockerImage dockerSpec.Image
    ).SetContainerDockerPrivileged dockerSpec.Privileged
    ).SetContainerDockerForcePullImage dockerSpec.ForcePullImage
    ).AppendContainerDockerVolumes containerSpec.Volumes
  let b := ((b.AppendContainerDockerEnvironments versionSpec.Env it.env
    ).SetURIs versionSpec.URIs).AppendTaskInfoLabels versionSpec.Labels it.userLabels
  let b := b.AppendTaskInfoLabels labels it.structured
  let b := b.AppendContainerDockerParameters task.Slot.Version.Container.Docker.Parameters
  let b :=
    if task.Slot.App.IsFixed then
      b.AppendContainerDockerParameters [⟨"ip", task.Slot.Ip⟩]
    else b
  let b := it.mirror.order.foldl
    (fun (b : TaskBuilder) e => b.AppendContainerDockerParameters [labelParameter e.1 e.2])
    b
  let b := b.SetNetwork dockerSpec.Network ow.PortsRemain
  let b :=
    match versionSpec.HealthCheck with
    | some hc => b.SetHealthCheck hc
    | none => b
  (b.taskInfo, { task with taskBuilder := some b, HostPorts := b.HostPorts })

/-! ## `task.go`: `Kill` -/

/-- Reduction of an integer to the range of a Go `int64` (two's complement
wrap-around). -/
def wrap64 (x : Int) : Int := (x + 2 ^ 63) % 2 ^ 64 - 2 ^ 63

/-- Go `int64` multiplication. -/
def mul64 (a b : Int) : Int := wrap64 (a * b)

/-- Go `mesos.DurationInfo`; `Nanoseconds` is an `int64`. -/
structure mesos.DurationInfo where
  Nanoseconds : Int
deriving DecidableEq, Repr

/-- Go `mesos.KillPolicy`. -/
structure mesos.KillPolicy where
  GracePeriod : Option mesos.DurationInfo
deriving DecidableEq, Repr

/-- Go `sched.Call_Kill`. -/
structure sched.Call_Kill where
  TaskId : String
  AgentId : String
  KillPolicy : Option mesos.KillPolicy
deriving DecidableEq, Repr

/-- Go `sched.Call`, restricted to the kill call. -/
structure sched.Call where
  FrameworkId : String
  Type_ : String
  Kill : sched.Call_Kill
deriving DecidableEq, Repr

/-- Go `Task.Kill`: the call handed to `connector.Instance().SendCall`. The
framework id comes from the connector and is an argument; the log line is
omitted. -/
def Task.Kill (task : Task) (frameworkId : String) : sched.Call :=
  let call : sched.Call :=
    { FrameworkId := frameworkId
      Type_ := "KILL"
      Kill := { TaskId := task.ID, AgentId := task.AgentID, KillPolicy := none } }
  match task.Version.KillPolicy with
  | some kp =>
    if kp.Duration != 0 then
      { call with Kill := { call.Kill with
          KillPolicy := some ⟨some ⟨mul64 (mul64 kp.Duration 1000) 1000⟩⟩ } }
    else call
  | none => call

/-! ## Reading a descriptor -/

/-- The key/value pair that a parameter value of the form `key=value` stands
for: the text before the first `=` and the text after it. -/
def decodeLabel (s : String) : String × String :=
  (String.mk (s.data.takeWhile (fun c => c != '=')),
   String.mk ((s.data.dropWhile (fun c => c != '=')).drop 1))

/-- The key/value pairs carried by the runtime parameters with key `label`. -/
def labelParameterPairs (ti : mesos.TaskInfo) : List (String × String) :=
  (ti.Parameters.filter (fun q => q.Key = "label")).map (fun q => decodeLabel q.Value)

/-- The key/value pairs of the structured task labels. -/
def structuredLabelPairs (ti : mesos.TaskInfo) : List (String × String) :=
  ti.Labels.map (fun l => (l.Key, l.Value))

/-- The seven default labels in the words of the specification: operator
user, cluster ID, slot ordinal index, slot ID, task ID, application name,
application ID. -/
def expectedDefaultLabels (task : Task) : List (String × String) :=
  [("DM_USER", task.Slot.Version.RunAs),
   ("DM_CLUSTER", task.Slot.App.ClusterID),
   ("DM_SLOT_INDEX", Itoa task.Slot.Index),
   ("DM_SLOT_ID", task.Slot.ID),
   ("DM_TASK_ID", task.ID),
   ("DM_APP_NAME", task.Slot.App.Name),
   ("DM_APP_ID", task.Slot.App.ID)]

/-! ## `upstream_loader.go` (package `janitor`) -/

/-- Go `janitor.TargetChangeEvent`. `Weight` is a `float64`; weights are only
copied and stored, never computed with, and are kept as an opaque number (the
bit pattern of the value). -/
structure TargetChangeEvent where
  Change : String
  AppID : String
  TaskID : String
  TaskIP : String
  TaskPort : Nat
  PortName : String
  VersionID : String
  AppVersion : String
  Weight : Nat
deriving DecidableEq, Repr

/-- Go `janitor.Target` (declared outside the excerpt): the fields that
`targetFromChangeEvent` sets. -/
structure Target where
  AppID : String
  TaskID : String
  TaskIP : String
  TaskPort : Nat
  PortName : String
  VersionID : String
  AppVersion : String
  Weight : Nat
deriving DecidableEq, Repr

/-- Go `janitor.Upstream` (declared outside the excerpt): an application ID
and its targets. -/
structure Upstream where
  AppID : String
  Targets : List Target
deriving DecidableEq, Repr

/-- Go `janitor.UpstreamLoader`: the slice `Upstreams` (the event channel and
the mutex are not modelled). -/
structure UpstreamLoader where
  Upstreams : List Upstream
deriving DecidableEq, Repr

/-- Modelled from the spec: `NewUpstream` is missing from the excerpt; a new
upstream has no application ID and no target. -/
def NewUpstream : Upstream := ⟨"", []⟩

/-- Modelled from the spec: `Upstream.Equal` is missing from the excerpt; the
registry is "keyed by application ID", and two upstreams are equal when their
application IDs are equal. -/
def Upstream.Equal (u u1 : Upstream) : Bool := decide (u.AppID = u1.AppID)

/-- Modelled from the spec: `Upstream.ContainsTarget` is missing from the
excerpt; it tells whether a target with the task ID is held. -/
def Upstream.ContainsTarget (u : Upstream) (taskID : String) : Bool :=
  u.Targets.any (fun t => decide (t.TaskID = taskID))

/-- Modelled from the spec: `Upstream.GetTarget` is missing from the excerpt;
it returns the first target with the task ID, `none` standing for `nil`. -/
def Upstream.GetTarget (u : Upstream) (taskID : String) : Option Target :=
  u.Targets.find? (fun t => decide (t.TaskID = taskID))

/-- Modelled from the spec: `Upstream.AddTarget` is missing from the excerpt;
it inserts the target. -/
def Upstream.AddTarget (u : Upstream) (target : Target) : Upstream :=
  { u with Targets := u.Targets ++ [target] }

/-- Modelled from the spec: `Upstream.RemoveTarget` is missing from the
excerpt; it removes the target with the task ID of the given one. -/
def Upstream.RemoveTarget (u : Upstream) (target : Target) : Upstream :=
  { u with Targets := u.Targets.eraseP (fun t => decide (t.TaskID = target.TaskID)) }

/-- Modelled from the spec: `Upstream.UpdateTargetWeight` is missing from the
excerpt; it "updates weights in place": the target with the task ID gets the
new weight. -/
def Upstream.UpdateTargetWeight (u : Upstream) (taskID : String) (newWeight : Nat) :
    Upstream :=
  { u with Targets :=
      u.Targets.map (fun t => if t.TaskID = taskID then { t with Weight := newWeight } else t) }

/-- Go `strings.ToLower`, on ASCII letters (Go also lowers letters outside
ASCII). -/
def ToLower (s : String) : String := String.mk (s.data.map Char.toLower)

/-- Go `strings.Replace(s, "-", ".", -1)`: every dash becomes a dot. -/
def replaceDashes (s : String) : String :=
  String.mk (s.data.map (fun c => if c = '-' then '.' else c))

/-- Go `formattedAppId`. -/
def formattedAppId (appID : String) : String := ToLower (replaceDashes appID)

/-- Go `NewUpstreamLoader`. -/
def NewUpstreamLoader : UpstreamLoader := ⟨[]⟩

/-- Go `UpstreamLoader.Contains`. -/
def UpstreamLoader.Contains (loader : UpstreamLoader) (newUpstream : Upstream) : Bool :=
  loader.Upstreams.any (fun u => u.Equal newUpstream)

/-- Go `UpstreamLoader.RemoveUpstream`: the first upstream equal to the given
one is cut out of the slice. -/
def UpstreamLoader.RemoveUpstream (loader : UpstreamLoader) (upstream : Upstream) :
    UpstreamLoader :=
  match loader.Upstreams.findIdx? (fun v => v.Equal upstream) with
  | some index => ⟨loader.Upstreams.take index ++ loader.Upstreams.drop (index + 1)⟩
  | none => loader

/-- Go `UpstreamLoader.Get`: the first upstream whose formatted application
ID is the formatted `appID`; `none` is `nil`. -/
def UpstreamLoader.Get (loader : UpstreamLoader) (appID : String) : Option Upstream :=
  loader.Upstreams.find? (fun u => decide (formattedAppId u.AppID = formattedAppId appID))

/-- The slice after the first element satisfying `p` has been changed by
`f`. -/
def modifyFirst {α : Type} (p : α → Bool) (f : α → α) : List α → List α
  | [] => []
  | x :: xs => if p x then f x :: xs else x :: modifyFirst p f xs

/-- The effect of `u := loader.Get(appID)` followed by a method call that
changes `u`: `Get` returns a pointer into the slice, so the upstream it found
is changed in place. -/
def UpstreamLoader.update (loader : UpstreamLoader) (appID : String)
    (f : Upstream → Upstream) : UpstreamLoader :=
  ⟨modifyFirst (fun u => decide (formattedAppId u.AppID = formattedAppId appID)) f
    loader.Upstreams⟩

/-- Go `targetFromChangeEvent`. -/
def targetFromChangeEvent (targetChangeEvent : TargetChangeEvent) : Target where
  AppID := targetChangeEvent.AppID
  TaskID := targetChangeEvent.TaskID
  TaskIP := targetChangeEvent.TaskIP
  TaskPort := targetChangeEvent.TaskPort
  PortName := targetChangeEvent.PortName
  VersionID := targetChangeEvent.VersionID
  AppVersion := targetChangeEvent.AppVersion
  Weight := targetChangeEvent.Weight

/-- Go `upstreamFromChangeEvent`. -/
def upstreamFromChangeEvent (targetChangeEvent : TargetChangeEvent) : Upstream :=
  { NewUpstream with Targets := [], AppID := targetChangeEvent.AppID }

/-- The first `if` statement of the loop body of `UpstreamLoader.Start`:
an `add` event. -/
def UpstreamLoader.handleAdd (loader : UpstreamLoader)
    (targetChangeEvent : TargetChangeEvent) (upstream : Upstream) (target : Target) :
    UpstreamLoader :=
  if ToLower targetChangeEvent.Change = "add" then
    if loader.Contains upstream then
      loader.update upstream.AppID
        (fun u => if !u.ContainsTarget target.TaskID then u.AddTarget target else u)
    else
      ⟨loader.Upstreams ++ [upstream.AddTarget target]⟩
  else loader

/-- The second `if` statement of the loop body: a `del` event. After
`u.RemoveTarget(target)` the pointer `u` is the upstream that `Get` finds. -/
def UpstreamLoader.handleDel (loader : UpstreamLoader)
    (targetChangeEvent : TargetChangeEvent) (upstream : Upstream) (target : Target) :
    UpstreamLoader :=
  if ToLower targetChangeEvent.Change = "del" then
    if loader.Contains upstream then
      match (loader.update upstream.AppID (fun u => u.RemoveTarget target)).Get
          upstream.AppID with
      | some u =>
        if u.Targets.length = 0 then
          (loader.update upstream.AppID (fun u => u.RemoveTarget target)).RemoveUpstream
            upstream
        else loader.update upstream.AppID (fun u => u.RemoveTarget target)
      | none => loader.update upstream.AppID (fun u => u.RemoveTarget target)
    else loader
  else loader

/-- The third `if` statement of the loop body: the weight update, taken when
`Change` is `change`. -/
def UpstreamLoader.handleChange (loader : UpstreamLoader)
    (targetChangeEvent : TargetChangeEvent) (upstream : Upstream) (target : Target) :
    UpstreamLoader :=
  if ToLower targetChangeEvent.Change = "change" then
    if loader.Contains upstream then
      match loader.Get upstream.AppID with
      | some u =>
        if (u.GetTarget target.TaskID).isNone then loader
        else
          loader.update upstream.AppID
            (fun u => u.UpdateTargetWeight target.TaskID target.Weight)
      | none => loader
    else loader
  else loader

/-- One turn of the loop of `UpstreamLoader.Start` on a received event: the
three `if` statements in sequence. -/
def UpstreamLoader.handle (loader : UpstreamLoader) (targetChangeEvent : TargetChangeEvent) :
    UpstreamLoader :=
  let upstream := upstreamFromChangeEvent targetChangeEvent
  let target := targetFromChangeEvent targetChangeEvent
  ((loader.handleAdd targetChangeEvent upstream target).handleDel
    targetChangeEvent upstream target).handleChange targetChangeEvent upstream target

/-- Go `UpstreamLoader.Start`: the loader after the loop has received the
events in order, up to the moment the context is done. -/
def UpstreamLoader.Start (loader : UpstreamLoader) (events : List TargetChangeEvent) :
    UpstreamLoader :=
  events.foldl UpstreamLoader.handle loader

/-- Go `UpstreamLoader.List`. -/
def UpstreamLoader.List (loader : UpstreamLoader) := loader.Upstreams

/-! ## `exchanger.go` (package `nameserver`) -/

/-- Go `dns.Msg` (package `miekg/dns`), kept opaque. -/
structure Msg where
  raw : List Nat
deriving DecidableEq, Repr

/-- Go `error` values as far as `IgnoreErrTruncated` tells them apart: the
variable `dns.ErrTruncated`, or any other error. -/
inductive DnsError where
  | ErrTruncated
  | other (text : String)
deriving DecidableEq, Repr

/-- The three results of one call of `Exchange`: reply, round-trip time and
error (`none` is `nil`). -/
structure Exchanged where
  r : Option Msg
  rtt : Int
  err : Option DnsError
deriving DecidableEq, Repr

/-- Go `Exchanger`: the method `Exchange(m, addr)`. A call talks to the
network; `σ` is the state of the world that the call reads and changes. -/
abbrev Exchanger (σ : Type) := Msg → String → σ → Exchanged × σ

/-- Go `Func`: a function used as an `Exchanger`; `Exchange` calls it. -/
def Func {σ : Type} (f : Msg → String → σ → Exchanged × σ) : Exchanger σ := f

/-- Go `Decorator`. -/
abbrev Decorator (σ : Type) := Exchanger σ → Exchanger σ

/-- Go `IgnoreErrTruncated`. -/
def IgnoreErrTruncated {σ : Type} : Decorator σ := fun ex =>
  Func (fun m a w =>
    let res := ex m a w
    let err := if res.1.err = some DnsError.ErrTruncated then none else res.1.err
    (⟨res.1.r, res.1.rtt, err⟩, res.2))

/-- Go `Decorate`. -/
def Decorate {σ : Type} (ex : Exchanger σ) (ds : List (Decorator σ)) : Exchanger σ :=
  ds.foldl (fun decorated decorate => decorate decorated) ex

/-! ## Decimal numerals -/

/-- The value of a decimal digit character. -/
def digitValue (c : Char) : Nat := c.toNat - '0'.toNat

/-- The number that a sequence of decimal digits stands for, most significant
digit first. -/
def numeralValue (cs : List Char) : Nat :=
  cs.foldl (fun acc c => 10 * acc + digitValue c) 0

/-- A decimal numeral: at least one character, decimal digits only, and no
leading zero except in the numeral `0` itself. -/
def isNumeral (cs : List Char) : Bool :=
  decide (cs ≠ [] ∧ (∀ c ∈ cs, c.isDigit = true) ∧ (cs.head? = some '0' → cs = ['0']))

/-- The decimal rendering of an integer, in the words of the specification:
`s` is the decimal rendering of `i` when it is the decimal numeral of value
`i`, or for a negative `i` a minus sign followed by the decimal numeral of
value `-i`. -/
def isDecimalOf (s : String) (i : Int) : Bool :=
  if i < 0 then
    decide (s.data.head? = some '-') && isNumeral s.data.tail &&
      decide (numeralValue s.data.tail = i.natAbs)
  else
    isNumeral s.data && decide (numeralValue s.data = i.toNat)

/-! ## Sample data -/

/-- A version with no labels, no custom parameters and no kill policy. -/
def plainVersion : Version where
  RunAs := "ops"
  Command := "run"
  Args := []
  CPUs := 1
  Mem := 64
  Disk := 0
  Container := ⟨⟨"busybox", "bridge", [], [], false, false⟩, []⟩
  Labels := ∅
  Env := ∅
  URIs := []
  HealthCheck := none
  KillPolicy := none

/-- Application `a`, last updated at time 5. -/
def appA : App := ⟨"a", "alpha", "c1", plainVersion, false, 5⟩

/-- Application `b`, last updated at time 5 as well. -/
def appB : App := ⟨"b", "beta", "c1", plainVersion, true, 5⟩

/-- The registry after `Add("a", appA)` and then `Add("b", appB)`. -/
def storeAB : memoryStore := (NewMemoryStore.Add "a" appA).Add "b" appB

/-- Filter options with both selectors absent. -/
def noSelectors : AppFilterOptions := ⟨none, none⟩

/-- A label selector that matches no label set. -/
def matchNothing : Selector := ⟨fun _ => false⟩

/-- Slot 0 of application `a`. -/
def slotA0 : Slot := ⟨"0-a", 0, "10.0.0.2", appA, plainVersion⟩

/-- A UUID with every byte equal to 7. -/
def uuid7 : UUID := ⟨List.replicate 16 7, rfl⟩

/-- A task of slot 0 whose version has a kill policy of `d` milliseconds. -/
def taskWithKillPolicy (d : Int) : Task :=
  NewTask { plainVersion with KillPolicy := some ⟨d⟩ } slotA0 uuid7 0

/-- An offer from agent `agent1` with two remaining ports. -/
def offer1 : OfferWrapper := ⟨⟨"o1", "agent1"⟩, [31000, 31001]⟩

/-- A task of slot 0 of application `a` running the plain version. -/
def taskPlain : Task := NewTask plainVersion slotA0 uuid7 0

/-- The plain version with the user-defined label `tier=web`. -/
def labelledVersion : Version :=
  { plainVersion with Labels := (∅ : GoMap String).insert "tier" "web" }

/-- A task whose slot runs the labelled version. -/
def taskLabelled : Task :=
  NewTask labelledVersion ⟨"0-a", 0, "10.0.0.2", appA, labelledVersion⟩ uuid7 0

/-- The plain version with the custom runtime parameter `ip=10.9.9.9`. -/
def ipParamVersion : Version :=
  { plainVersion with
    Container := ⟨⟨"busybox", "bridge", [⟨"ip", "10.9.9.9"⟩], [], false, false⟩, []⟩ }

/-- A task of application `a`, which is not fixed-IP, whose slot runs the
version with the custom `ip` parameter. -/
def taskIpParam : Task :=
  NewTask ipParamVersion ⟨"0-a", 0, "10.0.0.2", appA, ipParamVersion⟩ uuid7 0

/-- A task of application `b`, which is fixed-IP, running the plain
version. -/
def taskFixed : Task :=
  NewTask plainVersion ⟨"0-b", 0, "10.0.0.7", appB, plainVersion⟩ uuid7 0

/-- The plain version with a user-defined label on the default key
`DM_APP_ID`. -/
def collidingVersion : Version :=
  { plainVersion with Labels := (∅ : GoMap String).insert "DM_APP_ID" "spoofed" }

/-- A task whose slot runs the version with the colliding label. -/
def taskColliding : Task :=
  NewTask collidingVersion ⟨"0-a", 0, "10.0.0.2", appA, collidingVersion⟩ uuid7 0

/-- A UUID with every byte equal to 8. -/
def uuid8 : UUID := ⟨List.replicate 16 8, rfl⟩

/-- The iteration orders of a second run on the plain task: the mirroring loop
visits the default labels in the opposite order. -/
def reversedMirror : RangeOrders taskPlain :=
  ⟨RangeOrder.id _, RangeOrder.id _, RangeOrder.id _,
    ⟨(defaultLabels taskPlain).entries.reverse, List.reverse_perm _⟩⟩

/-- The plain version with one declared port mapping. -/
def portVersion : Version :=
  { plainVersion with
    Container := ⟨⟨"busybox", "bridge", [], [⟨80, "http", "tcp"⟩], false, false⟩, []⟩ }

/-- A new task whose version, and whose slot's version, declares one port
mapping. -/
def taskPort : Task :=
  NewTask portVersion ⟨"0-a", 0, "10.0.0.2", appA, portVersion⟩ uuid7 0

/-- An exchanger whose reply is truncated: it echoes the message after 7 time
units with `dns.ErrTruncated`, and counts its calls. -/
def truncatedExchanger : Exchanger Nat :=
  fun m _ calls => (⟨some m, 7, some DnsError.ErrTruncated⟩, calls + 1)

/-- An exchanger that fails with another error. -/
def refusedExchanger : Exchanger Nat :=
  fun _ _ calls => (⟨none, 3, some (DnsError.other "refused")⟩, calls + 1)

/-- A query message. -/
def query : Msg := ⟨[1, 2, 3]⟩

/-- A change event for task `taskID` of application `appID`, at address
`10.0.0.1:80`. -/
def eventOf (change appID taskID : String) (weight : Nat) : TargetChangeEvent :=
  ⟨change, appID, taskID, "10.0.0.1", 80, "web", "v1", "1", weight⟩

/-- The target that the loader builds from `eventOf _ appID taskID weight`. -/
def targetOf (appID taskID : String) (weight : Nat) : Target :=
  ⟨appID, taskID, "10.0.0.1", 80, "web", "v1", "1", weight⟩

/-- The registry after `Add("x", appA)` and then `Add("y", appA)`: the same
application stored under two ids. -/
def storeXY : memoryStore := (NewMemoryStore.Add "x" appA).Add "y" appA

/-- A task of slot 12 of application `a` running the plain version. -/
def taskIndexed : Task :=
  NewTask plainVersion ⟨"12-a", 12, "10.0.0.2", appA, plainVersion⟩ uuid7 0

/-- A task whose slot has the index -3. -/
def taskNegativeIndex : Task :=
  NewTask plainVersion ⟨"x-a", -3, "10.0.0.2", appA, plainVersion⟩ uuid7 0

/-! # Properties -/

/-! ## Registry: `Add`, `Get`, `Delete` -/

/-- C1. After `Add(id, a)`, `Get(id)` returns `a`, whether or not `id` had an
entry before, and `Get(j)` is what it was for every other id `j`. -/
theorem Get_Add (m : memoryStore) (id : String) (a : App) :
    (m.Add id a).Get id = some a ∧
    ∀ j, j ≠ id → (m.Add id a).Get j = m.Get j := by
  refine ⟨?_, fun j hj => ?_⟩
  · simp [memoryStore.Add, memoryStore.Get]
  · simp [memoryStore.Add, memoryStore.Get, AList.lookup_insert_ne hj]

/-- C2. After `Delete(id)`, `Get(id)` is absent and `Get(j)` is unchanged for
every other id `j`; deleting an id that has no entry leaves the registry as it
was. -/
theorem Get_Delete (m : memoryStore) (id : String) :
    (m.Delete id).Get id = none ∧
    (∀ j, j ≠ id → (m.Delete id).Get j = m.Get j) ∧
    (m.Get id = none → m.Delete id = m) := by
  refine ⟨?_, fun j hj => ?_, fun h => ?_⟩
  · simp [memoryStore.Delete, memoryStore.Get]
  · simp [memoryStore.Delete, memoryStore.Get, AList.lookup_erase_ne hj]
  · have hk : id ∉ m.s.entries.keys := by
      have := (AList.lookup_eq_none (a := id) (s := m.s)).1 h
      simpa [AList.mem_keys, AList.keys] using this
    cases m with
    | mk s =>
      simp only [memoryStore.Delete, memoryStore.mk.injEq]
      exact AList.ext (List.kerase_of_not_mem_keys hk)

/-- Witness of `Get_Add` on the registry holding `a` and `b`. -/
theorem Get_Add_witness :
    storeAB.Get "b" = some appB ∧ storeAB.Get "a" = some appA :=
  ⟨(Get_Add (NewMemoryStore.Add "a" appA) "b" appB).1,
   ((Get_Add (NewMemoryStore.Add "a" appA) "b" appB).2 "a" (by decide)).trans
     (Get_Add NewMemoryStore "a" appA).1⟩

/-- Witness of `Get_Delete`: deleting `b` keeps `a`, and deleting the unknown
id `zz` changes nothing. -/
theorem Get_Delete_witness :
    (storeAB.Delete "b").Get "a" = storeAB.Get "a" ∧ storeAB.Delete "zz" = storeAB :=
  ⟨(Get_Delete storeAB "b").2.1 "a" (by decide),
   (Get_Delete storeAB "zz").2.2 (by decide)⟩

/-! ## Registry: `Filter` -/

/-- The two selector tests of the loop agree with `selected`. -/
theorem filterBy_eq_selected (options : AppFilterOptions) (a : App) :
    (filterByLabelsSelectors options.LabelsSelector a.CurrentVersion.Labels &&
      filterByFieldsSelectors options.FieldsSelector a) = selected options a := by
  cases options with
  | mk ls fs => cases ls <;> cases fs <;> rfl

/-- The loop of `Filter` collects, in visiting order, the selected
applications. -/
theorem Filter_loop (options : AppFilterOptions) (l : List (Σ _ : String, App))
    (acc : List App) :
    l.foldl
      (fun (apps : List App) e =>
        if !filterByLabelsSelectors options.LabelsSelector e.2.CurrentVersion.Labels then apps
        else if !filterByFieldsSelectors options.FieldsSelector e.2 then apps
        else apps ++ [e.2])
      acc
    = acc ++ (l.map (fun e => e.2)).filter (selected options) := by
  induction l generalizing acc with
  | nil => simp
  | cons e l ih =>
    rw [List.foldl_cons, ih, List.map_cons, List.filter_cons,
      ← filterBy_eq_selected options e.2]
    cases filterByLabelsSelectors options.LabelsSelector e.2.CurrentVersion.Labels <;>
      cases filterByFieldsSelectors options.FieldsSelector e.2 <;> simp

/-- The result of `Filter` is the sorted list of the selected applications in
visiting order. -/
theorem Filter_eq (m : memoryStore) (options : AppFilterOptions) (srt : Sorter)
    (it : RangeOrder m.s.entries) :
    m.Filter options srt it
      = srt.sort ((it.order.map (fun e => e.2)).filter (selected options)) := by
  unfold memoryStore.Filter
  rw [Filter_loop, List.nil_append]

/-- An application is held by the registry iff some id looks it up. -/
theorem mem_apps (m : memoryStore) (a : App) :
    a ∈ m.apps ↔ ∃ id, m.Get id = some a := by
  simp only [memoryStore.apps, memoryStore.Get, List.mem_map]
  constructor
  · rintro ⟨⟨id, b⟩, he, rfl⟩
    exact ⟨id, Option.mem_def.1 (AList.mem_lookup_iff.2 he)⟩
  · rintro ⟨id, h⟩
    exact ⟨⟨id, a⟩, AList.mem_lookup_iff.1 (Option.mem_def.2 h), rfl⟩

/-- The result of `Filter` is a rearrangement of the selected stored
applications. -/
theorem Filter_perm (m : memoryStore) (options : AppFilterOptions) (srt : Sorter)
    (it : RangeOrder m.s.entries) :
    (m.Filter options srt it).Perm (m.apps.filter (selected options)) := by
  rw [Filter_eq]
  exact (srt.perm _).trans ((it.perm.map _).filter _)

/-- C3, as stated, fails. The application `a` is stored under the two ids `x`
and `y` and is selected (both selectors are absent); the result of `Filter`
holds it twice, not exactly once. -/
theorem Filter_same_app_twice :
    storeXY = (NewMemoryStore.Add "x" appA).Add "y" appA ∧
    storeXY.Get "x" = some appA ∧
    storeXY.Get "y" = some appA ∧
    selected noSelectors appA = true ∧
    (storeXY.Filter noSelectors insertionSorter (RangeOrder.id _)).count appA = 2 := by
  refine ⟨rfl, rfl, rfl, rfl, ?_⟩
  have h : storeXY.Filter noSelectors insertionSorter (RangeOrder.id _) = [appA, appA] := rfl
  rw [h]
  simp

/-- C3, amended. The result of `Filter` holds each stored application once
for every id under which it is stored if it is selected (label selector absent
or matching the labels of its current version, and field selector absent or
matching the field set `runAs`), and not at all otherwise; nothing else
appears. When the stored applications are pairwise distinct, a stored
application appears exactly once iff it is selected. With both selectors
absent the result is a rearrangement of all stored applications, and when no
stored application is selected the result is empty. -/
theorem Filter_exactly_selected (m : memoryStore) (options : AppFilterOptions)
    (srt : Sorter) (it : RangeOrder m.s.entries) :
    (m.Filter options srt it).Perm (m.apps.filter (selected options)) ∧
    (∀ a, (m.Filter options srt it).count a
        = if selected options a then m.apps.count a else 0) ∧
    (∀ a, a ∈ m.Filter options srt it
        ↔ (∃ id, m.Get id = some a) ∧ selected options a = true) ∧
    (m.apps.Nodup → ∀ a, (∃ id, m.Get id = some a) →
        ((m.Filter options srt it).count a = 1 ↔ selected options a = true)) ∧
    (options.LabelsSelector = none → options.FieldsSelector = none →
        (m.Filter options srt it).Perm m.apps) ∧
    ((∀ a, (∃ id, m.Get id = some a) → selected options a = false) →
        m.Filter options srt it = []) := by
  have hperm := Filter_perm m options srt it
  have hcount : ∀ a, (m.Filter options srt it).count a
      = if selected options a then m.apps.count a else 0 := by
    intro a
    rw [hperm.count_eq]
    by_cases hs : selected options a = true
    · rw [if_pos hs, List.count_filter hs]
    · rw [if_neg hs]
      exact List.count_eq_zero_of_not_mem (fun h => hs (List.mem_filter.1 h).2)
  refine ⟨hperm, hcount, fun a => ?_, fun hnd a ha => ?_, fun hl hf => ?_, fun hnone => ?_⟩
  · rw [hperm.mem_iff, List.mem_filter, mem_apps]
  · have h1 : m.apps.count a = 1 :=
      List.count_eq_one_of_mem hnd ((mem_apps m a).2 ha)
    rw [hcount a, h1]
    cases selected options a <;> simp
  · have hall : ∀ a ∈ m.apps, selected options a = true := by
      intro a _
      simp [selected, hl, hf]
    rw [← List.filter_eq_self.2 hall]
    exact hperm
  · have hnil : m.apps.filter (selected options) = [] := by
      rw [List.filter_eq_nil_iff]
      intro a ha
      simp [hnone a ((mem_apps m a).1 ha)]
    exact List.Perm.eq_nil (hnil ▸ hperm)

/-- The two sample applications are stored once each. -/
theorem storeAB_apps_nodup : storeAB.apps.Nodup := by
  have hne : appB ≠ appA := fun h => absurd (congrArg App.ID h) (by decide)
  have happs : storeAB.apps = [appB, appA] := rfl
  rw [happs]
  simp [hne]

/-- Witness of `Filter_exactly_selected` on the registry holding `a` and `b`:
without selectors everything is returned, `a` exactly once, and a selector
that matches nothing yields the empty result. -/
theorem Filter_exactly_selected_witness :
    (storeAB.Filter noSelectors insertionSorter (RangeOrder.id _)).Perm storeAB.apps ∧
    ((storeAB.Filter noSelectors insertionSorter (RangeOrder.id _)).count appA = 1
      ↔ selected noSelectors appA = true) ∧
    storeAB.Filter ⟨some matchNothing, none⟩ insertionSorter (RangeOrder.id _) = [] :=
  ⟨(Filter_exactly_selected storeAB noSelectors insertionSorter
      (RangeOrder.id _)).2.2.2.2.1 rfl rfl,
   (Filter_exactly_selected storeAB noSelectors insertionSorter
      (RangeOrder.id _)).2.2.2.1 storeAB_apps_nodup appA ⟨"a", rfl⟩,
   (Filter_exactly_selected storeAB ⟨some matchNothing, none⟩ insertionSorter
      (RangeOrder.id _)).2.2.2.2.2 (fun _ _ => rfl)⟩

/-- C4, as stated, fails. `a` is inserted before `b` and both have the same
update time; when the loop visits `b` first, `Filter` returns `b` before
`a`. -/
theorem Filter_ties_not_in_insertion_order :
    storeAB = (NewMemoryStore.Add "a" appA).Add "b" appB ∧
    appA.Updated = appB.Updated ∧
    storeAB.Filter noSelectors insertionSorter (RangeOrder.id storeAB.s.entries)
      = [appB, appA] :=
  ⟨rfl, rfl, rfl⟩

/-- C4, amended. The result of `Filter` is sorted by update time descending:
an application never precedes one that was updated later. -/
theorem Filter_sorted_by_updated (m : memoryStore) (options : AppFilterOptions)
    (srt : Sorter) (it : RangeOrder m.s.entries) :
    (m.Filter options srt it).Pairwise (fun a b => b.Updated ≤ a.Updated) := by
  rw [Filter_eq]
  refine (srt.sorted _).imp ?_
  intro a b h
  simp only [AppsByUpdated.Less, decide_eq_false_iff_not] at h
  omega

/-! ## `Kill` -/

/-- Two wrapped multiplications by 1000 are one wrapped multiplication by
1000000. -/
theorem mul64_thousand_twice (d : Int) :
    mul64 (mul64 d 1000) 1000 = wrap64 (d * 1000000) := by
  unfold mul64 wrap64
  norm_num
  omega

/-- Within this range the product by 1000000 fits an `int64`. -/
theorem wrap64_millis (d : Int) (h1 : -9223372036854 ≤ d) (h2 : d ≤ 9223372036854) :
    wrap64 (d * 1000000) = d * 1000000 := by
  unfold wrap64
  norm_num
  omega

/-- C5, as stated, fails. A kill policy of 9223372036855 milliseconds (a valid
`int64`) is emitted as a negative grace period, not as 9223372036855000000
nanoseconds. -/
theorem Kill_grace_period_overflow :
    (-2 ^ 63 ≤ (9223372036855 : Int) ∧ (9223372036855 : Int) < 2 ^ 63) ∧
    ((taskWithKillPolicy 9223372036855).Kill "fw").Kill.KillPolicy
      = some ⟨some ⟨-9223372036854551616⟩⟩ ∧
    ((taskWithKillPolicy 9223372036855).Kill "fw").Kill.KillPolicy
      ≠ some ⟨some ⟨9223372036855 * 1000000⟩⟩ := by
  decide

/-- C5, amended. Without a kill policy, or with one of duration 0, the kill
call carries no kill policy. With a non-zero duration `d` the grace period is
`d * 1000000` reduced to the `int64` range, which is `d * 1000000` itself
whenever `-9223372036854 ≤ d ≤ 9223372036854`. -/
theorem Kill_grace_period (task : Task) (frameworkId : String) :
    (task.Version.KillPolicy = none → (task.Kill frameworkId).Kill.KillPolicy = none) ∧
    (task.Version.KillPolicy = some ⟨0⟩ → (task.Kill frameworkId).Kill.KillPolicy = none) ∧
    (∀ d : Int, task.Version.KillPolicy = some ⟨d⟩ → d ≠ 0 →
      (task.Kill frameworkId).Kill.KillPolicy = some ⟨some ⟨wrap64 (d * 1000000)⟩⟩ ∧
      (-9223372036854 ≤ d → d ≤ 9223372036854 →
        (task.Kill frameworkId).Kill.KillPolicy = some ⟨some ⟨d * 1000000⟩⟩)) := by
  refine ⟨fun h => ?_, fun h => ?_, fun d h hd => ?_⟩
  · simp [Task.Kill, h]
  · simp [Task.Kill, h]
  · have hk : (task.Kill frameworkId).Kill.KillPolicy
        = some ⟨some ⟨wrap64 (d * 1000000)⟩⟩ := by
      simp [Task.Kill, h, hd, mul64_thousand_twice]
    refine ⟨hk, fun h1 h2 => ?_⟩
    rw [hk, wrap64_millis d h1 h2]

/-- Witness of `Kill_grace_period`: no policy, a zero duration, and a grace
period of 30 seconds. -/
theorem Kill_grace_period_witness :
    ((NewTask plainVersion slotA0 uuid7 0).Kill "fw").Kill.KillPolicy = none ∧
    ((taskWithKillPolicy 0).Kill "fw").Kill.KillPolicy = none ∧
    ((taskWithKillPolicy 30000).Kill "fw").Kill.KillPolicy
      = some ⟨some ⟨30000 * 1000000⟩⟩ :=
  ⟨(Kill_grace_period (NewTask plainVersion slotA0 uuid7 0) "fw").1 rfl,
   (Kill_grace_period (taskWithKillPolicy 0) "fw").2.1 rfl,
   ((Kill_grace_period (taskWithKillPolicy 30000) "fw").2.2 30000 rfl (by decide)).2
     (by decide) (by decide)⟩

/-! ## `PrepareTaskInfo`: what the descriptor holds -/

/-- The mirroring loop appends one `label` parameter per visited entry. -/
theorem mirror_loop_Parameters (l : List (Σ _ : String, String)) (b : TaskBuilder) :
    (l.foldl
      (fun (b : TaskBuilder) e => b.AppendContainerDockerParameters [labelParameter e.1 e.2])
      b).taskInfo.Parameters
    = b.taskInfo.Parameters ++ l.map (fun e => ⟨"label", e.1 ++ "=" ++ e.2⟩) := by
  induction l generalizing b with
  | nil => simp
  | cons e l ih =>
    rw [List.foldl_cons, ih]
    simp [TaskBuilder.AppendContainerDockerParameters, labelParameter]

/-- The mirroring loop leaves the structured labels alone. -/
theorem mirror_loop_Labels (l : List (Σ _ : String, String)) (b : TaskBuilder) :
    (l.foldl
      (fun (b : TaskBuilder) e => b.AppendContainerDockerParameters [labelParameter e.1 e.2])
      b).taskInfo.Labels
    = b.taskInfo.Labels := by
  induction l generalizing b with
  | nil => simp
  | cons e l ih =>
    rw [List.foldl_cons, ih]
    simp [TaskBuilder.AppendContainerDockerParameters]

/-- The runtime parameters of the descriptor: the custom parameters of the
version, then the `ip` parameter if the application is fixed-IP, then the
mirrored default labels in the order the loop visits them. -/
theorem PrepareTaskInfo_Parameters (task : Task) (ow : OfferWrapper) (it : RangeOrders task) :
    (task.PrepareTaskInfo ow it).1.Parameters
    = task.Slot.Version.Container.Docker.Parameters.map (fun q => ⟨q.Key, q.Value⟩)
      ++ (if task.Slot.App.IsFixed then [⟨"ip", task.Slot.Ip⟩] else [])
      ++ it.mirror.order.map (fun e => ⟨"label", e.1 ++ "=" ++ e.2⟩) := by
  unfold Task.PrepareTaskInfo
  dsimp only
  cases task.Slot.App.IsFixed <;> cases task.Slot.Version.HealthCheck <;>
    simp only [TaskBuilder.SetHealthCheck, TaskBuilder.SetNetwork, mirror_loop_Parameters] <;>
    simp [NewTaskBuilder, TaskBuilder.SetName, TaskBuilder.SetTaskId,
      TaskBuilder.SetAgentId, TaskBuilder.SetResources, TaskBuilder.SetCommand,
      TaskBuilder.SetContainerType, TaskBuilder.SetContainerDockerImage,
      TaskBuilder.SetContainerDockerPrivileged, TaskBuilder.SetContainerDockerForcePullImage,
      TaskBuilder.AppendContainerDockerVolumes, TaskBuilder.AppendContainerDockerEnvironments,
      TaskBuilder.SetURIs, TaskBuilder.AppendTaskInfoLabels,
      TaskBuilder.AppendContainerDockerParameters, TaskBuilder.SetNetwork,
      TaskBuilder.SetHealthCheck]

/-- The structured labels of the descriptor: the user-defined labels of the
version in the order visited, then the default labels in the order visited. -/
theorem PrepareTaskInfo_Labels (task : Task) (ow : OfferWrapper) (it : RangeOrders task) :
    (task.PrepareTaskInfo ow it).1.Labels
    = it.userLabels.order.map (fun e => ⟨e.1, e.2⟩)
      ++ it.structured.order.map (fun e => ⟨e.1, e.2⟩) := by
  unfold Task.PrepareTaskInfo
  dsimp only
  cases task.Slot.App.IsFixed <;> cases task.Slot.Version.HealthCheck <;>
    simp only [TaskBuilder.SetHealthCheck, TaskBuilder.SetNetwork, mirror_loop_Labels] <;>
    simp [NewTaskBuilder, TaskBuilder.SetName, TaskBuilder.SetTaskId,
      TaskBuilder.SetAgentId, TaskBuilder.SetResources, TaskBuilder.SetCommand,
      TaskBuilder.SetContainerType, TaskBuilder.SetContainerDockerImage,
      TaskBuilder.SetContainerDockerPrivileged, TaskBuilder.SetContainerDockerForcePullImage,
      TaskBuilder.AppendContainerDockerVolumes, TaskBuilder.AppendContainerDockerEnvironments,
      TaskBuilder.SetURIs, TaskBuilder.AppendTaskInfoLabels,
      TaskBuilder.AppendContainerDockerParameters, TaskBuilder.SetNetwork,
      TaskBuilder.SetHealthCheck]

/-- The seven entries of the default label map, most recent assignment
first. -/
theorem defaultLabels_entries (task : Task) :
    (defaultLabels task).entries
    = [⟨"DM_APP_ID", task.Slot.App.ID⟩, ⟨"DM_APP_NAME", task.Slot.App.Name⟩,
       ⟨"DM_TASK_ID", task.ID⟩, ⟨"DM_SLOT_ID", task.Slot.ID⟩,
       ⟨"DM_SLOT_INDEX", Itoa task.Slot.Index⟩, ⟨"DM_CLUSTER", task.Slot.App.ClusterID⟩,
       ⟨"DM_USER", task.Slot.Version.RunAs⟩] :=
  rfl

/-- Splitting at the first `=` recovers a prefix free of `=`. -/
theorem takeWhile_dropWhile_sep (l1 l2 : List Char) (h : ∀ c ∈ l1, c ≠ '=') :
    (l1 ++ '=' :: l2).takeWhile (fun c => c != '=') = l1 ∧
    ((l1 ++ '=' :: l2).dropWhile (fun c => c != '=')).drop 1 = l2 := by
  induction l1 with
  | nil => simp [List.takeWhile, List.dropWhile]
  | cons c l ih =>
    have hc : (c != '=') = true := by simpa using h c (List.mem_cons_self _ _)
    have := ih (fun d hd => h d (List.mem_cons_of_mem _ hd))
    simp [List.takeWhile, List.dropWhile, hc, this]

/-- Decoding `k=v` gives back `k` and `v` when `k` holds no `=`. -/
theorem decodeLabel_mirror (k v : String) (h : ∀ c ∈ k.data, c ≠ '=') :
    decodeLabel (k ++ "=" ++ v) = (k, v) := by
  have hd : (k ++ "=" ++ v).data = k.data ++ '=' :: v.data := by
    simp [String.data_append]
  unfold decodeLabel
  rw [hd, (takeWhile_dropWhile_sep k.data v.data h).1,
    (takeWhile_dropWhile_sep k.data v.data h).2]

/-- No default label key holds the character `=`. -/
theorem defaultLabels_keys (task : Task) :
    ∀ e ∈ (defaultLabels task).entries, ∀ c ∈ e.1.data, c ≠ '=' := by
  intro e he
  rw [defaultLabels_entries] at he
  simp only [List.mem_cons, List.mem_singleton, List.not_mem_nil, or_false] at he
  rcases he with rfl | rfl | rfl | rfl | rfl | rfl | rfl <;> dsimp only <;> decide

/-- The default label map holds the seven pairs named by the specification
and nothing else. -/
theorem mem_expectedDefaultLabels (task : Task) (p : String × String) :
    p ∈ expectedDefaultLabels task
      ↔ p ∈ (defaultLabels task).entries.map (fun e => (e.1, e.2)) := by
  rw [defaultLabels_entries]
  simp only [expectedDefaultLabels, List.map_cons, List.map_nil, List.mem_cons,
    List.mem_singleton, List.not_mem_nil, or_false]
  tauto

/-- Membership in a visiting order is membership in the map. -/
theorem RangeOrder.mem_map {α β : Type} {l : List α} (it : RangeOrder l) (f : α → β) (y : β) :
    y ∈ it.order.map f ↔ y ∈ l.map f :=
  (it.perm.map f).mem_iff

/-- The pairs carried by the `label` parameters of the descriptor: those of
the custom `label` parameters of the version, then the default labels in the
order the mirroring loop visits them. -/
theorem labelParameterPairs_eq (task : Task) (ow : OfferWrapper) (it : RangeOrders task) :
    labelParameterPairs (task.PrepareTaskInfo ow it).1
    = (task.Slot.Version.Container.Docker.Parameters.filter
        (fun q => q.Key = "label")).map (fun q => decodeLabel q.Value)
      ++ it.mirror.order.map (fun e => (e.1, e.2)) := by
  have hmirror : ∀ l : List (Σ _ : String, String),
      (∀ e ∈ l, ∀ c ∈ e.1.data, c ≠ '=') →
      ((l.map (fun e => (⟨"label", e.1 ++ "=" ++ e.2⟩ : mesos.Parameter))).filter
          (fun q => q.Key = "label")).map (fun q => decodeLabel q.Value)
        = l.map (fun e => (e.1, e.2)) := by
    intro l
    induction l with
    | nil => simp
    | cons e l ih =>
      intro h
      have h1 := decodeLabel_mirror e.1 e.2 (h e (List.mem_cons_self _ _))
      have h2 := ih (fun d hd => h d (List.mem_cons_of_mem _ hd))
      simp [List.filter_cons, h1, h2]
  have hcustom : ∀ l : List Parameter,
      ((l.map (fun q => (⟨q.Key, q.Value⟩ : mesos.Parameter))).filter
          (fun q => q.Key = "label")).map (fun q => decodeLabel q.Value)
        = (l.filter (fun q => q.Key = "label")).map (fun q => decodeLabel q.Value) := by
    intro l
    induction l with
    | nil => simp
    | cons q l ih =>
      by_cases hq : q.Key = "label" <;> simp [List.filter_cons, hq, ih]
  have hkeys : ∀ e ∈ it.mirror.order, ∀ c ∈ e.1.data, c ≠ '=' :=
    fun e he => defaultLabels_keys task e (it.mirror.perm.mem_iff.1 he)
  unfold labelParameterPairs
  rw [PrepareTaskInfo_Parameters, List.filter_append, List.filter_append, List.map_append,
    List.map_append, hmirror _ hkeys, hcustom]
  cases task.Slot.App.IsFixed <;> simp [List.filter_cons]

/-- The pairs of the structured labels of the descriptor. -/
theorem structuredLabelPairs_eq (task : Task) (ow : OfferWrapper) (it : RangeOrders task) :
    structuredLabelPairs (task.PrepareTaskInfo ow it).1
    = it.userLabels.order.map (fun e => (e.1, e.2))
      ++ it.structured.order.map (fun e => (e.1, e.2)) := by
  unfold structuredLabelPairs
  rw [PrepareTaskInfo_Labels]
  simp [List.map_append, Function.comp_def]

/-- C6, as stated, fails. For a version with the user-defined label
`tier=web` the structured labels of the descriptor hold the pair
`(tier, web)`, and no runtime `label` parameter carries it. -/
theorem label_channels_diverge :
    (("tier", "web") : String × String)
      ∈ structuredLabelPairs (taskLabelled.PrepareTaskInfo offer1 (RangeOrders.id _)).1 ∧
    (("tier", "web") : String × String)
      ∉ labelParameterPairs (taskLabelled.PrepareTaskInfo offer1 (RangeOrders.id _)).1 := by
  decide

/-- C6, amended. The runtime `label` parameters of the descriptor carry
exactly the seven default pairs and the pairs of the custom `label` parameters
of the version; the structured labels hold exactly the seven default pairs and
the user-defined labels of the version. So every default pair is on both
channels, and the two channels carry the same set of pairs whenever the
version has no user-defined label and no custom parameter with key `label`. -/
theorem label_channels_agree_on_defaults (task : Task) (ow : OfferWrapper)
    (it : RangeOrders task) :
    (∀ p, p ∈ labelParameterPairs (task.PrepareTaskInfo ow it).1
        ↔ p ∈ expectedDefaultLabels task ∨
          p ∈ (task.Slot.Version.Container.Docker.Parameters.filter
                (fun q => q.Key = "label")).map (fun q => decodeLabel q.Value)) ∧
    (∀ p, p ∈ structuredLabelPairs (task.PrepareTaskInfo ow it).1
        ↔ p ∈ expectedDefaultLabels task ∨
          p ∈ task.Slot.Version.Labels.entries.map (fun e => (e.1, e.2))) ∧
    (task.Slot.Version.Labels.entries = [] →
      (∀ q ∈ task.Slot.Version.Container.Docker.Parameters, q.Key ≠ "label") →
      ∀ p, p ∈ labelParameterPairs (task.PrepareTaskInfo ow it).1
        ↔ p ∈ structuredLabelPairs (task.PrepareTaskInfo ow it).1) := by
  have hparams : ∀ p, p ∈ labelParameterPairs (task.PrepareTaskInfo ow it).1
      ↔ p ∈ expectedDefaultLabels task ∨
        p ∈ (task.Slot.Version.Container.Docker.Parameters.filter
              (fun q => q.Key = "label")).map (fun q => decodeLabel q.Value) := by
    intro p
    rw [labelParameterPairs_eq, List.mem_append, it.mirror.mem_map,
      mem_expectedDefaultLabels, or_comm]
  have hlabels : ∀ p, p ∈ structuredLabelPairs (task.PrepareTaskInfo ow it).1
      ↔ p ∈ expectedDefaultLabels task ∨
        p ∈ task.Slot.Version.Labels.entries.map (fun e => (e.1, e.2)) := by
    intro p
    rw [structuredLabelPairs_eq, List.mem_append, it.structured.mem_map,
      it.userLabels.mem_map, mem_expectedDefaultLabels, or_comm]
  refine ⟨hparams, hlabels, fun hl hc p => ?_⟩
  have hnone : task.Slot.Version.Container.Docker.Parameters.filter
      (fun q => q.Key = "label") = [] := by
    rw [List.filter_eq_nil_iff]
    intro q hq
    simpa using hc q hq
  rw [hparams, hlabels, hl, hnone]
  simp

/-- Witness of `label_channels_agree_on_defaults`: for the plain version the
two channels carry the same pairs. -/
theorem label_channels_agree_on_defaults_witness :
    (("DM_USER", "ops") : String × String)
      ∈ labelParameterPairs (taskPlain.PrepareTaskInfo offer1 (RangeOrders.id _)).1
    ↔ (("DM_USER", "ops") : String × String)
      ∈ structuredLabelPairs (taskPlain.PrepareTaskInfo offer1 (RangeOrders.id _)).1 :=
  (label_channels_agree_on_defaults taskPlain offer1 (RangeOrders.id _)).2.2 rfl
    (fun _ hq => absurd hq (List.not_mem_nil _)) ("DM_USER", "ops")

/-! ## `PrepareTaskInfo`: the `ip` parameter -/

/-- The `ip` parameters of the descriptor: those among the custom parameters
of the version, then the one appended for a fixed-IP application. -/
theorem PrepareTaskInfo_ip_parameters (task : Task) (ow : OfferWrapper)
    (it : RangeOrders task) :
    (task.PrepareTaskInfo ow it).1.Parameters.filter (fun q => q.Key = "ip")
    = (task.Slot.Version.Container.Docker.Parameters.filter (fun q => q.Key = "ip")).map
        (fun q => ⟨q.Key, q.Value⟩)
      ++ (if task.Slot.App.IsFixed then [⟨"ip", task.Slot.Ip⟩] else []) := by
  have hmirror : ∀ l : List (Σ _ : String, String),
      (l.map (fun e => (⟨"label", e.1 ++ "=" ++ e.2⟩ : mesos.Parameter))).filter
        (fun q => q.Key = "ip") = [] := by
    intro l
    rw [List.filter_eq_nil_iff]
    intro q hq
    obtain ⟨e, _, rfl⟩ := List.mem_map.1 hq
    dsimp only
    decide
  have hcustom : ∀ l : List Parameter,
      (l.map (fun q => (⟨q.Key, q.Value⟩ : mesos.Parameter))).filter (fun q => q.Key = "ip")
        = (l.filter (fun q => q.Key = "ip")).map (fun q => ⟨q.Key, q.Value⟩) := by
    intro l
    induction l with
    | nil => simp
    | cons q l ih =>
      by_cases hq : q.Key = "ip" <;> simp [List.filter_cons, hq, ih]
  rw [PrepareTaskInfo_Parameters, List.filter_append, List.filter_append, hmirror,
    hcustom, List.append_nil]
  cases task.Slot.App.IsFixed <;> simp [List.filter_cons]

/-- C7, as stated, fails. Application `a` is not fixed-IP, yet the descriptor
holds a parameter with key `ip`: the custom parameter of the version. -/
theorem ip_parameter_without_fixed_ip :
    taskIpParam.Slot.App.IsFixed = false ∧
    (⟨"ip", "10.9.9.9"⟩ : mesos.Parameter)
      ∈ (taskIpParam.PrepareTaskInfo offer1 (RangeOrders.id _)).1.Parameters := by
  decide

/-- C7, amended. The `ip` parameters of the descriptor are the custom `ip`
parameters of the version followed, iff the application is fixed-IP, by one
parameter whose value is the IP of the slot. When no custom parameter has key
`ip`, the descriptor holds an `ip` parameter iff the application is fixed-IP,
and its value is the IP of the slot. -/
theorem ip_parameter_iff_fixed (task : Task) (ow : OfferWrapper) (it : RangeOrders task) :
    (task.PrepareTaskInfo ow it).1.Parameters.filter (fun q => q.Key = "ip")
      = (task.Slot.Version.Container.Docker.Parameters.filter (fun q => q.Key = "ip")).map
          (fun q => ⟨q.Key, q.Value⟩)
        ++ (if task.Slot.App.IsFixed then [⟨"ip", task.Slot.Ip⟩] else []) ∧
    ((∀ q ∈ task.Slot.Version.Container.Docker.Parameters, q.Key ≠ "ip") →
      ((∃ q ∈ (task.PrepareTaskInfo ow it).1.Parameters, q.Key = "ip")
        ↔ task.Slot.App.IsFixed = true) ∧
      (∀ q ∈ (task.PrepareTaskInfo ow it).1.Parameters, q.Key = "ip" →
        q.Value = task.Slot.Ip)) := by
  refine ⟨PrepareTaskInfo_ip_parameters task ow it, fun hc => ?_⟩
  have hnone : task.Slot.Version.Container.Docker.Parameters.filter
      (fun q => q.Key = "ip") = [] := by
    rw [List.filter_eq_nil_iff]
    intro q hq
    simpa using hc q hq
  have hip := PrepareTaskInfo_ip_parameters task ow it
  rw [hnone, List.map_nil, List.nil_append] at hip
  have hmem : ∀ q : mesos.Parameter,
      (q ∈ (task.PrepareTaskInfo ow it).1.Parameters ∧ q.Key = "ip")
        ↔ q ∈ (if task.Slot.App.IsFixed then [(⟨"ip", task.Slot.Ip⟩ : mesos.Parameter)]
                else []) := by
    intro q
    rw [← hip, List.mem_filter]
    simp
  constructor
  · constructor
    · rintro ⟨q, hq, hk⟩
      have := (hmem q).1 ⟨hq, hk⟩
      cases hf : task.Slot.App.IsFixed
      · rw [hf] at this
        simp at this
      · rfl
    · intro hf
      refine ⟨⟨"ip", task.Slot.Ip⟩, ((hmem _).2 ?_).1, rfl⟩
      rw [hf]
      simp
  · intro q hq hk
    have := (hmem q).1 ⟨hq, hk⟩
    cases hf : task.Slot.App.IsFixed
    · rw [hf] at this
      simp at this
    · rw [hf] at this
      simp at this
      rw [this]

/-- Witness of `ip_parameter_iff_fixed` on a fixed-IP application without
custom parameters. -/
theorem ip_parameter_iff_fixed_witness :
    ((∃ q ∈ (taskFixed.PrepareTaskInfo offer1 (RangeOrders.id _)).1.Parameters, q.Key = "ip")
      ↔ taskFixed.Slot.App.IsFixed = true) ∧
    (⟨"ip", "10.0.0.7"⟩ : mesos.Parameter).Value = taskFixed.Slot.Ip :=
  ⟨((ip_parameter_iff_fixed taskFixed offer1 (RangeOrders.id _)).2
      (fun _ hq => absurd hq (List.not_mem_nil _))).1,
   ((ip_parameter_iff_fixed taskFixed offer1 (RangeOrders.id _)).2
      (fun _ hq => absurd hq (List.not_mem_nil _))).2 ⟨"ip", "10.0.0.7"⟩ (by decide) rfl⟩

/-! ## `PrepareTaskInfo`: the default labels -/

/-- The default label map holds the seven expected pairs, once each. -/
theorem defaultLabels_perm_expected (task : Task) :
    ((defaultLabels task).entries.map (fun e => (e.1, e.2))).Perm
      (expectedDefaultLabels task) := by
  have h : (defaultLabels task).entries.map (fun e => (e.1, e.2))
      = (expectedDefaultLabels task).reverse := by
    rw [defaultLabels_entries]
    rfl
  rw [h]
  exact List.reverse_perm _

/-- An expected default pair is an entry of the default label map. -/
theorem entry_of_expected (task : Task) (p : String × String)
    (hp : p ∈ expectedDefaultLabels task) :
    (⟨p.1, p.2⟩ : Σ _ : String, String) ∈ (defaultLabels task).entries := by
  obtain ⟨e, he, hep⟩ := List.mem_map.1 ((mem_expectedDefaultLabels task p).1 hp)
  cases e with
  | mk k v =>
    cases hep
    exact he

/-- The mirrored parameters of different entries of the default label map are
different. -/
theorem labelParameter_injOn (task : Task) :
    ∀ e ∈ (defaultLabels task).entries, ∀ d ∈ (defaultLabels task).entries,
      (⟨"label", e.1 ++ "=" ++ e.2⟩ : mesos.Parameter) = ⟨"label", d.1 ++ "=" ++ d.2⟩ →
      e = d := by
  intro e he d hd h
  have hv : e.1 ++ "=" ++ e.2 = d.1 ++ "=" ++ d.2 := by
    injection h
  have h1 := decodeLabel_mirror e.1 e.2 (defaultLabels_keys task e he)
  have h2 := decodeLabel_mirror d.1 d.2 (defaultLabels_keys task d hd)
  rw [hv, h2] at h1
  cases e with
  | mk k v =>
    cases d with
    | mk k2 v2 =>
      simp only [Prod.mk.injEq] at h1
      obtain ⟨rfl, rfl⟩ := h1
      rfl

/-- The character of a digit below ten is a decimal digit of that value, and
is `0` only for the digit zero. -/
theorem digitChar_digit : ∀ k : Fin 10, (Nat.digitChar k.val).isDigit = true ∧
    digitValue (Nat.digitChar k.val) = k.val ∧
    (Nat.digitChar k.val = '0' → k.val = 0) := by decide

/-- The digits are produced in front of the accumulator. -/
theorem toDigitsCore_acc (fuel : Nat) : ∀ (n : Nat) (ds : List Char),
    Nat.toDigitsCore 10 fuel n ds = Nat.toDigitsCore 10 fuel n [] ++ ds := by
  induction fuel with
  | zero => intro n ds; simp [Nat.toDigitsCore]
  | succ fuel ih =>
    intro n ds
    simp only [Nat.toDigitsCore]
    split
    · simp
    · rw [ih (n / 10) (_ :: ds), ih (n / 10) [_]]
      simp

/-- Appending a digit multiplies the value by ten and adds the digit. -/
theorem numeralValue_snoc (cs : List Char) (c : Char) :
    numeralValue (cs ++ [c]) = 10 * numeralValue cs + digitValue c := by
  simp [numeralValue, List.foldl_append]

/-- With enough fuel the library routine behind `Nat.repr` produces the
decimal numeral of `n`. -/
theorem toDigitsCore_numeral (fuel : Nat) : ∀ n : Nat, n < fuel →
    (Nat.toDigitsCore 10 fuel n [] ≠ [] ∧
     (∀ c ∈ Nat.toDigitsCore 10 fuel n [], c.isDigit = true) ∧
     ((Nat.toDigitsCore 10 fuel n []).head? = some '0' → Nat.toDigitsCore 10 fuel n [] = ['0'])) ∧
    numeralValue (Nat.toDigitsCore 10 fuel n []) = n := by
  induction fuel with
  | zero => intro n h; omega
  | succ fuel ih =>
    intro n hn
    simp only [Nat.toDigitsCore]
    have hd := digitChar_digit ⟨n % 10, Nat.mod_lt _ (by decide)⟩
    simp only at hd
    split
    · rename_i h0
      have hlt : n % 10 = n := by omega
      refine ⟨⟨by simp, ?_, ?_⟩, ?_⟩
      · intro c hc
        rw [List.mem_singleton] at hc
        rw [hc]; exact hd.1
      · intro hh
        simp only [List.head?_cons, Option.some.injEq] at hh
        rw [hh]
      · simp only [numeralValue, List.foldl_cons, List.foldl_nil]
        rw [hd.2.1]
        omega
    · rename_i h0
      have hlt : n / 10 < fuel := by omega
      obtain ⟨⟨hne, hall, hhead⟩, hval⟩ := ih (n / 10) hlt
      rw [toDigitsCore_acc]
      refine ⟨⟨by simp, ?_, ?_⟩, ?_⟩
      · intro c hc
        rcases List.mem_append.1 hc with h | h
        · exact hall c h
        · rw [List.mem_singleton] at h
          rw [h]; exact hd.1
      · intro hh
        exfalso
        have : (Nat.toDigitsCore 10 fuel (n / 10) []).head? = some '0' := by
          cases hl : Nat.toDigitsCore 10 fuel (n / 10) [] with
          | nil => exact absurd hl hne
          | cons a l => rw [hl] at hh; simpa using hh
        have h1 := hhead this
        rw [h1] at hval
        have : numeralValue ['0'] = 0 := by decide
        omega
      · rw [numeralValue_snoc, hval, hd.2.1]
        omega

/-- The text `Nat.repr n` is the decimal numeral of value `n`. -/
theorem repr_numeral (n : Nat) :
    isNumeral (Nat.repr n).data = true ∧ numeralValue (Nat.repr n).data = n := by
  have h := toDigitsCore_numeral (n + 1) n (Nat.lt_succ_self n)
  have hdata : (Nat.repr n).data = Nat.toDigitsCore 10 (n + 1) n [] := rfl
  rw [hdata]
  exact ⟨decide_eq_true h.1, h.2⟩

/-- The text `Itoa i` is the decimal rendering of `i`. -/
theorem Itoa_decimal (i : Int) : isDecimalOf (Itoa i) i = true := by
  cases i with
  | ofNat n =>
    have h := repr_numeral n
    have hi : ¬ (Int.ofNat n < 0) := by simp
    simp only [isDecimalOf, hi, if_false, Itoa, h.1, Bool.true_and, decide_eq_true_eq]
    exact h.2
  | negSucc n =>
    have h := repr_numeral (n + 1)
    have hi : Int.negSucc n < 0 := Int.negSucc_lt_zero n
    have hdata : ("-" ++ Nat.repr (n + 1)).data = '-' :: (Nat.repr (n + 1)).data := by
      simp [String.data_append]
    simp only [isDecimalOf, hi, if_true, Itoa, hdata, List.head?_cons, List.tail_cons, h.1,
      decide_True, Bool.true_and, decide_eq_true_eq]
    rw [h.2]
    rfl

/-- C8. The default label map holds exactly the seven pairs `DM_USER`,
`DM_CLUSTER`, `DM_SLOT_INDEX`, `DM_SLOT_ID`, `DM_TASK_ID`, `DM_APP_NAME`,
`DM_APP_ID` with the values named in the claim, the value of `DM_SLOT_INDEX`
being the decimal rendering of the index of the slot, and the mirroring loop
appends to the descriptor, after the custom parameters and the `ip`
parameter, seven parameters with key `label`, exactly one of value `k=v` for
each of the seven pairs `(k, v)`. -/
theorem default_labels_mirrored (task : Task) (ow : OfferWrapper) (it : RangeOrders task) :
    ((defaultLabels task).entries.map (fun e => (e.1, e.2))).Perm
      [("DM_USER", task.Slot.Version.RunAs),
       ("DM_CLUSTER", task.Slot.App.ClusterID),
       ("DM_SLOT_INDEX", Itoa task.Slot.Index),
       ("DM_SLOT_ID", task.Slot.ID),
       ("DM_TASK_ID", task.ID),
       ("DM_APP_NAME", task.Slot.App.Name),
       ("DM_APP_ID", task.Slot.App.ID)] ∧
    isDecimalOf (Itoa task.Slot.Index) task.Slot.Index = true ∧
    (∃ index : String,
      (defaultLabels task).lookup "DM_SLOT_INDEX" = some index ∧
      isDecimalOf index task.Slot.Index = true) ∧
    ∃ loop : List mesos.Parameter,
      (task.PrepareTaskInfo ow it).1.Parameters
        = task.Slot.Version.Container.Docker.Parameters.map (fun q => ⟨q.Key, q.Value⟩)
          ++ (if task.Slot.App.IsFixed then [⟨"ip", task.Slot.Ip⟩] else [])
          ++ loop ∧
      loop.length = 7 ∧
      (∀ q ∈ loop, q.Key = "label") ∧
      ∀ p ∈ expectedDefaultLabels task, loop.count ⟨"label", p.1 ++ "=" ++ p.2⟩ = 1 := by
  refine ⟨defaultLabels_perm_expected task, Itoa_decimal task.Slot.Index,
    ⟨Itoa task.Slot.Index, rfl, Itoa_decimal task.Slot.Index⟩,
    it.mirror.order.map (fun e => ⟨"label", e.1 ++ "=" ++ e.2⟩),
    PrepareTaskInfo_Parameters task ow it, ?_, ?_, ?_⟩
  · rw [List.length_map, it.mirror.perm.length_eq, defaultLabels_entries]
    rfl
  · intro q hq
    obtain ⟨e, _, rfl⟩ := List.mem_map.1 hq
    rfl
  · intro p hp
    have hnd : it.mirror.order.Nodup :=
      it.mirror.perm.nodup_iff.2 (defaultLabels task).nodupKeys.nodup
    have hinj : ∀ e ∈ it.mirror.order, ∀ d ∈ it.mirror.order,
        (⟨"label", e.1 ++ "=" ++ e.2⟩ : mesos.Parameter) = ⟨"label", d.1 ++ "=" ++ d.2⟩ →
        e = d :=
      fun e he d hd => labelParameter_injOn task e (it.mirror.perm.mem_iff.1 he) d
        (it.mirror.perm.mem_iff.1 hd)
    refine List.count_eq_one_of_mem (List.Nodup.map_on hinj hnd) ?_
    exact List.mem_map.2 ⟨⟨p.1, p.2⟩, it.mirror.perm.mem_iff.2 (entry_of_expected task p hp), rfl⟩

/-- Witness of `default_labels_mirrored`: the descriptor of the plain task
holds the parameter `label` with value `DM_USER=ops` exactly once, the
descriptor of the task of slot 12 holds `DM_SLOT_INDEX=12` exactly once, and
the slot indices 12 and -3 are rendered as `12` and `-3`. -/
theorem default_labels_mirrored_witness :
    (taskPlain.PrepareTaskInfo offer1 (RangeOrders.id _)).1.Parameters.count
      ⟨"label", "DM_USER" ++ "=" ++ "ops"⟩ = 1 ∧
    (taskIndexed.PrepareTaskInfo offer1 (RangeOrders.id _)).1.Parameters.count
      ⟨"label", "DM_SLOT_INDEX" ++ "=" ++ "12"⟩ = 1 ∧
    (defaultLabels taskIndexed).lookup "DM_SLOT_INDEX" = some "12" ∧
    (defaultLabels taskNegativeIndex).lookup "DM_SLOT_INDEX" = some "-3" := by
  refine ⟨?_, ?_, by decide, by decide⟩
  · obtain ⟨loop, hP, _, _, hc⟩ :=
      (default_labels_mirrored taskPlain offer1 (RangeOrders.id _)).2.2.2
    have h := hc ("DM_USER", "ops") (by decide)
    rw [hP]
    simpa [taskPlain, NewTask, slotA0, plainVersion, appA, App.IsFixed] using h
  · obtain ⟨loop, hP, _, _, hc⟩ :=
      (default_labels_mirrored taskIndexed offer1 (RangeOrders.id _)).2.2.2
    have h := hc ("DM_SLOT_INDEX", "12") (by decide)
    rw [hP]
    simpa [taskIndexed, NewTask, plainVersion, appA, App.IsFixed] using h

/-- In a list of labels where `x` occurs and is the only label with its key,
the first label found with that key is `x`. -/
theorem find?_key_of_unique (l : List mesos.Label) (x : mesos.Label) (hx : x ∈ l)
    (hu : ∀ y ∈ l, y.Key = x.Key → y = x) :
    l.find? (fun y => y.Key = x.Key) = some x := by
  induction l with
  | nil => exact absurd hx (List.not_mem_nil _)
  | cons a l ih =>
    by_cases ha : a.Key = x.Key
    · rw [List.find?_cons_of_pos _ (by simpa using ha), hu a (List.mem_cons_self _ _) ha]
    · rw [List.find?_cons_of_neg _ (by simpa using ha)]
      have hxl : x ∈ l := by
        rcases List.mem_cons.1 hx with h | h
        · exact absurd (congrArg mesos.Label.Key h).symm ha
        · exact h
      exact ih hxl (fun y hy => hu y (List.mem_cons_of_mem _ hy))

/-- C9. The structured labels of the descriptor are the user-defined labels
of the version followed by the default labels, so for every default key the
last structured label with that key carries the default value, also when a
user-defined label has the same key. -/
theorem default_labels_win (task : Task) (ow : OfferWrapper) (it : RangeOrders task) :
    (∃ us ds : List mesos.Label,
      (task.PrepareTaskInfo ow it).1.Labels = us ++ ds ∧
      us.Perm (task.Slot.Version.Labels.entries.map (fun e => ⟨e.1, e.2⟩)) ∧
      ds.Perm ((expectedDefaultLabels task).map (fun p => ⟨p.1, p.2⟩))) ∧
    ∀ p ∈ expectedDefaultLabels task,
      (task.PrepareTaskInfo ow it).1.Labels.reverse.find? (fun l => l.Key = p.1)
        = some ⟨p.1, p.2⟩ := by
  constructor
  · refine ⟨it.userLabels.order.map (fun e => ⟨e.1, e.2⟩),
      it.structured.order.map (fun e => ⟨e.1, e.2⟩),
      PrepareTaskInfo_Labels task ow it, it.userLabels.perm.map _, ?_⟩
    refine (it.structured.perm.map _).trans ?_
    have h := (defaultLabels_perm_expected task).map
      (fun p : String × String => (⟨p.1, p.2⟩ : mesos.Label))
    simpa [List.map_map, Function.comp_def] using h
  · intro p hp
    have hmem : (⟨p.1, p.2⟩ : mesos.Label)
        ∈ (it.structured.order.map (fun e => (⟨e.1, e.2⟩ : mesos.Label))).reverse := by
      rw [List.mem_reverse]
      exact List.mem_map.2
        ⟨⟨p.1, p.2⟩, it.structured.perm.mem_iff.2 (entry_of_expected task p hp), rfl⟩
    have huniq : ∀ y ∈ (it.structured.order.map (fun e => (⟨e.1, e.2⟩ : mesos.Label))).reverse,
        y.Key = p.1 → y = ⟨p.1, p.2⟩ := by
      intro y hy hk
      rw [List.mem_reverse] at hy
      obtain ⟨e, he, rfl⟩ := List.mem_map.1 hy
      have := (defaultLabels task).nodupKeys.eq_of_fst_eq
        (it.structured.perm.mem_iff.1 he) (entry_of_expected task p hp) hk
      rw [this]
    rw [PrepareTaskInfo_Labels, List.reverse_append, List.find?_append,
      find?_key_of_unique _ ⟨p.1, p.2⟩ hmem huniq]
    rfl

/-- Witness of `default_labels_win`: the version labels `DM_APP_ID` as
`spoofed`; the last structured label with key `DM_APP_ID` carries the ID of
the application. -/
theorem default_labels_win_witness :
    (⟨"DM_APP_ID", "spoofed"⟩ : mesos.Label)
      ∈ (taskColliding.PrepareTaskInfo offer1 (RangeOrders.id _)).1.Labels ∧
    (taskColliding.PrepareTaskInfo offer1 (RangeOrders.id _)).1.Labels.reverse.find?
        (fun l => l.Key = "DM_APP_ID")
      = some ⟨"DM_APP_ID", "a"⟩ :=
  ⟨by decide,
   (default_labels_win taskColliding offer1 (RangeOrders.id _)).2 ("DM_APP_ID", "a")
     (by decide)⟩

/-! ## `NewTask`: task IDs -/

/-- No hexadecimal digit is a dash. -/
theorem hexDigit_ne_dash : ∀ n : Fin 16, hexDigit n.val ≠ '-' := by decide
/-- Different values below sixteen have different digits. -/
theorem hexDigit_inj : ∀ a b : Fin 16, hexDigit a.val = hexDigit b.val → a = b := by decide

/-- Removing dashes leaves a hexadecimal encoding as it is. -/
theorem hexEncode_filter (l : List (Fin 256)) :
    (hexEncode l).filter (fun c => c != '-') = hexEncode l := by
  rw [List.filter_eq_self]
  intro c hc
  simp only [hexEncode, List.mem_flatMap, List.mem_cons, List.mem_singleton, List.not_mem_nil, or_false] at hc
  obtain ⟨v, _, rfl | rfl⟩ := hc
  · have := hexDigit_ne_dash ⟨v.val / 16, by omega⟩
    simpa using this
  · have := hexDigit_ne_dash ⟨v.val % 16, by omega⟩
    simpa using this

/-- Encoding distributes over concatenation. -/
theorem hexEncode_append (l1 l2 : List (Fin 256)) :
    hexEncode (l1 ++ l2) = hexEncode l1 ++ hexEncode l2 := by
  simp [hexEncode, List.flatMap_append]

/-- Different byte strings have different encodings. -/
theorem hexEncode_inj : ∀ l1 l2 : List (Fin 256), hexEncode l1 = hexEncode l2 → l1 = l2
  | [], [] => fun _ => rfl
  | [], b :: l2 => fun h => by simp [hexEncode, List.flatMap_cons] at h
  | a :: l1, [] => fun h => by simp [hexEncode, List.flatMap_cons] at h
  | a :: l1, b :: l2 => fun h => by
    simp only [hexEncode, List.flatMap_cons, List.cons_append, List.nil_append, List.cons.injEq] at h
    obtain ⟨h1, h2, h3⟩ := h
    have e1 := hexDigit_inj ⟨a.val / 16, by omega⟩ ⟨b.val / 16, by omega⟩ h1
    have e2 := hexDigit_inj ⟨a.val % 16, by omega⟩ ⟨b.val % 16, by omega⟩ h2
    simp only [Fin.mk.injEq] at e1 e2
    have hab : a = b := Fin.ext (by omega)
    rw [hab, hexEncode_inj l1 l2 h3]

/-- The encoding has two digits per byte. -/
theorem length_hexEncode (l : List (Fin 256)) : (hexEncode l).length = 2 * l.length := by
  induction l with
  | nil => rfl
  | cons a l ih =>
    simp only [hexEncode, List.flatMap_cons, List.cons_append, List.nil_append, List.length_cons] at ih ⊢
    omega
/-- The five groups of the canonical form make up the whole byte string. -/
theorem bytes_groups (l : List (Fin 256)) : l.take 4 ++ ((l.drop 4).take 2 ++ ((l.drop 6).take 2 ++ ((l.drop 8).take 2 ++ l.drop 10))) = l := by
  have h1 : (l.drop 8).take 2 ++ l.drop 10 = l.drop 8 := by
    have := List.take_append_drop 2 (l.drop 8)
    rwa [List.drop_drop] at this
  have h2 : (l.drop 6).take 2 ++ l.drop 8 = l.drop 6 := by
    have := List.take_append_drop 2 (l.drop 6)
    rwa [List.drop_drop] at this
  have h3 : (l.drop 4).take 2 ++ l.drop 6 = l.drop 4 := by
    have := List.take_append_drop 2 (l.drop 4)
    rwa [List.drop_drop] at this
  rw [h1, h2, h3, List.take_append_drop]

/-- The suffix of a task ID: the canonical UUID string without its dashes is
the hexadecimal encoding of the sixteen bytes. -/
theorem removeDashes_String (u : UUID) :
    (removeDashes u.String).data = hexEncode u.bytes := by
  have hdash : (('-' : Char) != '-') = false := by decide
  simp only [removeDashes, UUID.String, List.filter_append, List.filter_cons, hdash,
    hexEncode_filter, Bool.false_eq_true, if_false]
  rw [← hexEncode_append, ← hexEncode_append, ← hexEncode_append, ← hexEncode_append,
    bytes_groups]

/-- The characters of a task ID: the slot ID, a dash, and 32 hexadecimal
digits. -/
theorem NewTask_ID_data (version : Version) (slot : Slot) (id : UUID) (now : Int) :
    (NewTask version slot id now).ID.data = slot.ID.data ++ '-' :: hexEncode id.bytes := by
  simp [NewTask, String.data_append, removeDashes_String]

/-- Equal task IDs come from equal slot IDs and equal UUIDs. -/
theorem NewTask_ID_eq (v1 v2 : Version) (s1 s2 : Slot) (u1 u2 : UUID) (t1 t2 : Int)
    (h : (NewTask v1 s1 u1 t1).ID = (NewTask v2 s2 u2 t2).ID) :
    s1.ID = s2.ID ∧ u1 = u2 := by
  have hd := congrArg String.data h
  rw [NewTask_ID_data, NewTask_ID_data] at hd
  have hlen : ('-' :: hexEncode u1.bytes).length = ('-' :: hexEncode u2.bytes).length := by
    simp [length_hexEncode, u1.size, u2.size]
  obtain ⟨hs, hu⟩ := List.append_inj' hd hlen
  refine ⟨String.ext hs, ?_⟩
  have hb : u1.bytes = u2.bytes := hexEncode_inj _ _ (List.cons.inj hu).2
  cases u1
  cases u2
  cases hb
  rfl

/-- C10. The ID built by `NewTask` determines the slot ID and the UUID it was
built from; hence creations that draw pairwise distinct UUIDs, for the same
slot or for different slots, get pairwise distinct task IDs. -/
theorem NewTask_ID_injective :
    (∀ (v1 v2 : Version) (s1 s2 : Slot) (u1 u2 : UUID) (t1 t2 : Int),
      (NewTask v1 s1 u1 t1).ID = (NewTask v2 s2 u2 t2).ID → s1.ID = s2.ID ∧ u1 = u2) ∧
    (∀ (v : Version) (s : Slot) (now : Int) (us : List UUID),
      us.Nodup → (us.map (fun u => (NewTask v s u now).ID)).Nodup) ∧
    (∀ cs : List (Version × Slot × UUID × Int),
      (cs.map (fun c => c.2.2.1)).Nodup →
      (cs.map (fun c => (NewTask c.1 c.2.1 c.2.2.1 c.2.2.2).ID)).Nodup) := by
  refine ⟨NewTask_ID_eq, fun v s now us hnd => ?_, fun cs hnd => ?_⟩
  · exact List.Nodup.map_on (fun a _ b _ h => (NewTask_ID_eq v v s s a b now now h).2) hnd
  · induction cs with
    | nil => exact List.nodup_nil
    | cons c cs ih =>
      rw [List.map_cons, List.nodup_cons] at hnd ⊢
      refine ⟨fun hmem => ?_, ih hnd.2⟩
      obtain ⟨d, hd, hid⟩ := List.mem_map.1 hmem
      have hu := (NewTask_ID_eq _ _ _ _ _ _ _ _ hid).2
      exact hnd.1 (List.mem_map.2 ⟨d, hd, hu⟩)

/-- Witness of `NewTask_ID_injective`: two creations for slot 0 of
application `a` with different UUIDs get different task IDs. -/
theorem NewTask_ID_injective_witness :
    ([uuid7, uuid8].map (fun u => (NewTask plainVersion slotA0 u 0).ID)).Nodup :=
  NewTask_ID_injective.2.1 plainVersion slotA0 0 [uuid7, uuid8]
    (by
      have hne : uuid7 ≠ uuid8 := fun h => absurd (congrArg UUID.bytes h) (by decide)
      simp [hne])

/-! ## `NewTask`: the fields of a new task -/

/-- No character of a hexadecimal encoding is a dash. -/
theorem hexEncode_no_dash (l : List (Fin 256)) : '-' ∉ hexEncode l := by
  intro h
  have hall := List.filter_eq_self.1 (hexEncode_filter l) '-' h
  exact absurd hall (by decide)

/-- C11. `NewTask(v, s)` returns a task whose version is `v`, whose slot is
`s`, whose IP is the IP of `s`, whose host ports are empty, whose ID is the ID
of `s`, a dash and a suffix of 32 characters none of which is a dash, and
whose other attributes are empty; the task refers to the slot and the version
as they were given. -/
theorem NewTask_fields (version : Version) (slot : Slot) (id : UUID) (now : Int) :
    (NewTask version slot id now).Version = version ∧
    (NewTask version slot id now).Slot = slot ∧
    (NewTask version slot id now).Ip = slot.Ip ∧
    (NewTask version slot id now).HostPorts = [] ∧
    (∃ suffix : String,
      (NewTask version slot id now).ID = slot.ID ++ "-" ++ suffix ∧
      suffix.length = 32 ∧ '-' ∉ suffix.data) ∧
    (NewTask version slot id now).State = "" ∧
    (NewTask version slot id now).OfferID = "" ∧
    (NewTask version slot id now).AgentID = "" ∧
    (NewTask version slot id now).Reason = "" ∧
    (NewTask version slot id now).Message = "" ∧
    (NewTask version slot id now).Source = "" ∧
    (NewTask version slot id now).ContainerId = "" ∧
    (NewTask version slot id now).ContainerName = "" ∧
    (NewTask version slot id now).Stdout = "" ∧
    (NewTask version slot id now).Stderr = "" ∧
    (NewTask version slot id now).AgentHostName = "" ∧
    (NewTask version slot id now).Created = now ∧
    (NewTask version slot id now).taskBuilder = none := by
  refine ⟨rfl, rfl, rfl, rfl, ⟨removeDashes id.String, rfl, ?_, ?_⟩,
    rfl, rfl, rfl, rfl, rfl, rfl, rfl, rfl, rfl, rfl, rfl, rfl, rfl⟩
  · show (removeDashes id.String).data.length = 32
    rw [removeDashes_String, length_hexEncode, id.size]
  · rw [removeDashes_String]
    exact hexEncode_no_dash id.bytes

/-! ## `PrepareTaskInfo`: dependence on the iteration order -/

/-- The mirroring loop changes the builder in its runtime parameters only. -/
theorem mirror_loop_eq (l : List (Σ _ : String, String)) (b : TaskBuilder) :
    l.foldl
      (fun (b : TaskBuilder) e => b.AppendContainerDockerParameters [labelParameter e.1 e.2])
      b
    = { b with taskInfo := { b.taskInfo with
          Parameters := b.taskInfo.Parameters
            ++ l.map (fun e => ⟨"label", e.1 ++ "=" ++ e.2⟩) } } := by
  induction l generalizing b with
  | nil => simp
  | cons e l ih =>
    rw [List.foldl_cons, ih]
    simp [TaskBuilder.AppendContainerDockerParameters, labelParameter]

/-- The descriptor produced by `PrepareTaskInfo`, field by field. -/
theorem PrepareTaskInfo_taskInfo (task : Task) (ow : OfferWrapper) (it : RangeOrders task) :
    (task.PrepareTaskInfo ow it).1
    = { Name := task.Slot.ID
        TaskId := task.ID
        AgentId := ow.Offer.AgentId
        Resources := task.Slot.ResourcesNeeded
        Command := task.Slot.Version.Command
        Args := task.Slot.Version.Args
        ContainerType := "docker"
        Image := task.Slot.Version.Container.Docker.Image
        Privileged := task.Slot.Version.Container.Docker.Privileged
        ForcePullImage := task.Slot.Version.Container.Docker.ForcePullImage
        Volumes := task.Slot.Version.Container.Volumes
        Environment := it.env.order.map (fun e => (e.1, e.2))
        URIs := task.Slot.Version.URIs
        Labels := it.userLabels.order.map (fun e => ⟨e.1, e.2⟩)
          ++ it.structured.order.map (fun e => ⟨e.1, e.2⟩)
        Parameters :=
          task.Slot.Version.Container.Docker.Parameters.map (fun q => ⟨q.Key, q.Value⟩)
          ++ (if task.Slot.App.IsFixed then [⟨"ip", task.Slot.Ip⟩] else [])
          ++ it.mirror.order.map (fun e => ⟨"label", e.1 ++ "=" ++ e.2⟩)
        Network := task.Slot.Version.Container.Docker.Network
        HealthCheck := task.Slot.Version.HealthCheck } := by
  unfold Task.PrepareTaskInfo
  dsimp only
  rw [mirror_loop_eq]
  cases task.Slot.App.IsFixed <;> cases task.Slot.Version.HealthCheck <;>
    simp [NewTaskBuilder, TaskBuilder.SetName, TaskBuilder.SetTaskId,
      TaskBuilder.SetAgentId, TaskBuilder.SetResources, TaskBuilder.SetCommand,
      TaskBuilder.SetContainerType, TaskBuilder.SetContainerDockerImage,
      TaskBuilder.SetContainerDockerPrivileged, TaskBuilder.SetContainerDockerForcePullImage,
      TaskBuilder.AppendContainerDockerVolumes, TaskBuilder.AppendContainerDockerEnvironments,
      TaskBuilder.SetURIs, TaskBuilder.AppendTaskInfoLabels,
      TaskBuilder.AppendContainerDockerParameters, TaskBuilder.SetNetwork,
      TaskBuilder.SetHealthCheck]

/-- The host ports recorded on the task by `PrepareTaskInfo`. -/
theorem PrepareTaskInfo_HostPorts (task : Task) (ow : OfferWrapper) (it : RangeOrders task) :
    (task.PrepareTaskInfo ow it).2.HostPorts
    = ow.PortsRemain.take task.Slot.Version.Container.Docker.PortMappings.length := by
  unfold Task.PrepareTaskInfo
  dsimp only
  rw [mirror_loop_eq]
  cases task.Slot.App.IsFixed <;> cases task.Slot.Version.HealthCheck <;>
    simp [NewTaskBuilder, TaskBuilder.SetName, TaskBuilder.SetTaskId,
      TaskBuilder.SetAgentId, TaskBuilder.SetResources, TaskBuilder.SetCommand,
      TaskBuilder.SetContainerType, TaskBuilder.SetContainerDockerImage,
      TaskBuilder.SetContainerDockerPrivileged, TaskBuilder.SetContainerDockerForcePullImage,
      TaskBuilder.AppendContainerDockerVolumes, TaskBuilder.AppendContainerDockerEnvironments,
      TaskBuilder.SetURIs, TaskBuilder.AppendTaskInfoLabels,
      TaskBuilder.AppendContainerDockerParameters, TaskBuilder.SetNetwork,
      TaskBuilder.SetHealthCheck]

/-- C12, as stated, fails. Two runs of `PrepareTaskInfo` on the same task and
offer, whose mirroring loops visit the map `defaultLabels` in different
orders, produce descriptors whose runtime parameters come in different
orders. -/
theorem PrepareTaskInfo_order_differs :
    (taskPlain.PrepareTaskInfo offer1 (RangeOrders.id _)).1.Parameters.head?
      = some ⟨"label", "DM_APP_ID=a"⟩ ∧
    (taskPlain.PrepareTaskInfo offer1 reversedMirror).1.Parameters.head?
      = some ⟨"label", "DM_USER=ops"⟩ ∧
    (taskPlain.PrepareTaskInfo offer1 (RangeOrders.id _)).1
      ≠ (taskPlain.PrepareTaskInfo offer1 reversedMirror).1 := by
  refine ⟨by decide, by decide, fun h => ?_⟩
  have := congrArg (fun d : mesos.TaskInfo => d.Parameters.head?) h
  revert this
  decide

/-- C12, amended. Two runs of `PrepareTaskInfo` on the same task and offer
produce descriptors that agree in every field except for the order of the
environment variables, of the structured labels and of the runtime
parameters, which are rearrangements of one another, and they record the same
host ports; when the loops of both runs visit the maps in the same order the
descriptors are equal. -/
theorem PrepareTaskInfo_deterministic_up_to_order (task : Task) (ow : OfferWrapper)
    (it1 it2 : RangeOrders task) :
    (task.PrepareTaskInfo ow it1).1.Name = (task.PrepareTaskInfo ow it2).1.Name ∧
    (task.PrepareTaskInfo ow it1).1.TaskId = (task.PrepareTaskInfo ow it2).1.TaskId ∧
    (task.PrepareTaskInfo ow it1).1.AgentId = (task.PrepareTaskInfo ow it2).1.AgentId ∧
    (task.PrepareTaskInfo ow it1).1.Resources = (task.PrepareTaskInfo ow it2).1.Resources ∧
    (task.PrepareTaskInfo ow it1).1.Command = (task.PrepareTaskInfo ow it2).1.Command ∧
    (task.PrepareTaskInfo ow it1).1.Args = (task.PrepareTaskInfo ow it2).1.Args ∧
    (task.PrepareTaskInfo ow it1).1.ContainerType
      = (task.PrepareTaskInfo ow it2).1.ContainerType ∧
    (task.PrepareTaskInfo ow it1).1.Image = (task.PrepareTaskInfo ow it2).1.Image ∧
    (task.PrepareTaskInfo ow it1).1.Privileged = (task.PrepareTaskInfo ow it2).1.Privileged ∧
    (task.PrepareTaskInfo ow it1).1.ForcePullImage
      = (task.PrepareTaskInfo ow it2).1.ForcePullImage ∧
    (task.PrepareTaskInfo ow it1).1.Volumes = (task.PrepareTaskInfo ow it2).1.Volumes ∧
    (task.PrepareTaskInfo ow it1).1.URIs = (task.PrepareTaskInfo ow it2).1.URIs ∧
    (task.PrepareTaskInfo ow it1).1.Network = (task.PrepareTaskInfo ow it2).1.Network ∧
    (task.PrepareTaskInfo ow it1).1.HealthCheck = (task.PrepareTaskInfo ow it2).1.HealthCheck ∧
    ((task.PrepareTaskInfo ow it1).1.Environment).Perm
      (task.PrepareTaskInfo ow it2).1.Environment ∧
    ((task.PrepareTaskInfo ow it1).1.Labels).Perm (task.PrepareTaskInfo ow it2).1.Labels ∧
    ((task.PrepareTaskInfo ow it1).1.Parameters).Perm
      (task.PrepareTaskInfo ow it2).1.Parameters ∧
    (task.PrepareTaskInfo ow it1).2.HostPorts = (task.PrepareTaskInfo ow it2).2.HostPorts ∧
    (it1.env.order = it2.env.order → it1.userLabels.order = it2.userLabels.order →
      it1.structured.order = it2.structured.order → it1.mirror.order = it2.mirror.order →
      (task.PrepareTaskInfo ow it1).1 = (task.PrepareTaskInfo ow it2).1) := by
  have hperm : ∀ {α β : Type} {l : List α} (r1 r2 : RangeOrder l) (f : α → β),
      (r1.order.map f).Perm (r2.order.map f) :=
    fun r1 r2 f => (r1.perm.trans r2.perm.symm).map f
  rw [PrepareTaskInfo_HostPorts, PrepareTaskInfo_HostPorts, PrepareTaskInfo_taskInfo,
    PrepareTaskInfo_taskInfo]
  refine ⟨rfl, rfl, rfl, rfl, rfl, rfl, rfl, rfl, rfl, rfl, rfl, rfl, rfl, rfl,
    hperm _ _ _, (hperm _ _ _).append (hperm _ _ _),
    List.Perm.append_left _ (hperm _ _ _), rfl, ?_⟩
  intro h1 h2 h3 h4
  rw [h1, h2, h3, h4]

/-- Witness of `PrepareTaskInfo_deterministic_up_to_order`: two runs on the
plain task that visit the maps in the same order. -/
theorem PrepareTaskInfo_deterministic_up_to_order_witness :
    (taskPlain.PrepareTaskInfo offer1 (RangeOrders.id _)).1
      = (taskPlain.PrepareTaskInfo offer1 (RangeOrders.id _)).1 :=
  (PrepareTaskInfo_deterministic_up_to_order taskPlain offer1 (RangeOrders.id _)
    (RangeOrders.id _)).2.2.2.2.2.2.2.2.2.2.2.2.2.2.2.2.2.2 rfl rfl rfl rfl

/-! ## Host ports -/

/-- The task returned by `PrepareTaskInfo` differs from the given one in its
builder and host ports only; in particular it keeps its version, and its
builder holds the host ports recorded on the task. -/
theorem PrepareTaskInfo_task (task : Task) (ow : OfferWrapper) (it : RangeOrders task) :
    (task.PrepareTaskInfo ow it).2.Version = task.Version ∧
    (task.PrepareTaskInfo ow it).2.Slot = task.Slot ∧
    (task.PrepareTaskInfo ow it).2.ID = task.ID ∧
    (task.PrepareTaskInfo ow it).2.taskBuilder.map (fun b => b.HostPorts)
      = some (task.PrepareTaskInfo ow it).2.HostPorts := by
  unfold Task.PrepareTaskInfo
  exact ⟨rfl, rfl, rfl, rfl⟩

/-- C13, as stated, fails. The task returned by `NewTask` for a version that
declares one port mapping has no host port. -/
theorem NewTask_HostPorts_mismatch :
    taskPort = NewTask portVersion ⟨"0-a", 0, "10.0.0.2", appA, portVersion⟩ uuid7 0 ∧
    taskPort.HostPorts.length = 0 ∧
    taskPort.Version.Container.Docker.PortMappings.length = 1 :=
  ⟨rfl, rfl, rfl⟩

/-- C13, amended. The task returned by `NewTask` has no host port, so its
host ports are as many as the declared port mappings only when the version
declares none. `PrepareTaskInfo` records the host ports assigned by the
builder onto the task; when the offer has at least as many remaining ports as
the version of the slot declares port mappings, the task then has as many host
ports as that version declares port mappings, which is the version of the
task when the two coincide. -/
theorem HostPorts_length (version : Version) (slot : Slot) (id : UUID) (now : Int)
    (task : Task) (ow : OfferWrapper) (it : RangeOrders task) :
    (NewTask version slot id now).HostPorts.length = 0 ∧
    (version.Container.Docker.PortMappings = [] →
      (NewTask version slot id now).HostPorts.length
        = (NewTask version slot id now).Version.Container.Docker.PortMappings.length) ∧
    (task.PrepareTaskInfo ow it).2.taskBuilder.map (fun b => b.HostPorts)
      = some (task.PrepareTaskInfo ow it).2.HostPorts ∧
    (task.Slot.Version.Container.Docker.PortMappings.length ≤ ow.PortsRemain.length →
      (task.PrepareTaskInfo ow it).2.HostPorts.length
        = task.Slot.Version.Container.Docker.PortMappings.length ∧
      (task.Version = task.Slot.Version →
        (task.PrepareTaskInfo ow it).2.HostPorts.length
          = (task.PrepareTaskInfo ow it).2.Version.Container.Docker.PortMappings.length)) := by
  refine ⟨rfl, fun h => ?_, (PrepareTaskInfo_task task ow it).2.2.2, fun hle => ?_⟩
  · show 0 = version.Container.Docker.PortMappings.length
    rw [h]
    rfl
  · have hlen : (task.PrepareTaskInfo ow it).2.HostPorts.length
        = task.Slot.Version.Container.Docker.PortMappings.length := by
      rw [PrepareTaskInfo_HostPorts, List.length_take]
      omega
    refine ⟨hlen, fun hv => ?_⟩
    rw [hlen, (PrepareTaskInfo_task task ow it).1, hv]

/-- Witness of `HostPorts_length`: a new task of the plain version, which
declares no port mapping, and the task with one port mapping prepared against
an offer with two remaining ports. -/
theorem HostPorts_length_witness :
    taskPlain.HostPorts.length = taskPlain.Version.Container.Docker.PortMappings.length ∧
    (taskPort.PrepareTaskInfo offer1 (RangeOrders.id _)).2.HostPorts.length = 1 ∧
    (taskPort.PrepareTaskInfo offer1 (RangeOrders.id _)).2.HostPorts.length
      = (taskPort.PrepareTaskInfo offer1
          (RangeOrders.id _)).2.Version.Container.Docker.PortMappings.length :=
  ⟨(HostPorts_length plainVersion slotA0 uuid7 0 taskPort offer1 (RangeOrders.id _)).2.1 rfl,
   ((HostPorts_length plainVersion slotA0 uuid7 0 taskPort offer1 (RangeOrders.id _)).2.2.2
      (by decide)).1,
   ((HostPorts_length plainVersion slotA0 uuid7 0 taskPort offer1 (RangeOrders.id _)).2.2.2
      (by decide)).2 rfl⟩

/-! ## `exchanger.go` -/

/-- C17. `IgnoreErrTruncated(ex).Exchange(m, a)` returns the reply and the
round-trip time of `ex.Exchange(m, a)` (and has the same effect), with error
`nil` when the error of `ex` is `dns.ErrTruncated` and with the error of `ex`
otherwise; so `IgnoreErrTruncated` applied twice behaves as applied once. -/
theorem IgnoreErrTruncated_Exchange {σ : Type} (ex : Exchanger σ) (m : Msg) (a : String)
    (w : σ) :
    (IgnoreErrTruncated ex m a w).1.r = (ex m a w).1.r ∧
    (IgnoreErrTruncated ex m a w).1.rtt = (ex m a w).1.rtt ∧
    (IgnoreErrTruncated ex m a w).2 = (ex m a w).2 ∧
    ((ex m a w).1.err = some DnsError.ErrTruncated →
      (IgnoreErrTruncated ex m a w).1.err = none) ∧
    ((ex m a w).1.err ≠ some DnsError.ErrTruncated →
      (IgnoreErrTruncated ex m a w).1.err = (ex m a w).1.err) ∧
    ((ex m a w).1.err = none → (IgnoreErrTruncated ex m a w).1.err = none) ∧
    IgnoreErrTruncated (IgnoreErrTruncated ex) = IgnoreErrTruncated ex := by
  refine ⟨rfl, rfl, rfl, fun h => ?_, fun h => ?_, fun h => ?_, ?_⟩
  · simp [IgnoreErrTruncated, Func, h]
  · simp [IgnoreErrTruncated, Func, h]
  · simp [IgnoreErrTruncated, Func, h]
  · funext m a w
    by_cases h : (ex m a w).1.err = some DnsError.ErrTruncated <;>
      simp [IgnoreErrTruncated, Func, h]

/-- Witness of `IgnoreErrTruncated_Exchange`: a truncated reply is passed on
without error, another error is passed on as it is. -/
theorem IgnoreErrTruncated_Exchange_witness :
    (IgnoreErrTruncated truncatedExchanger query "10.0.0.1:53" 0).1.err = none ∧
    (IgnoreErrTruncated refusedExchanger query "10.0.0.1:53" 0).1.err
      = (refusedExchanger query "10.0.0.1:53" 0).1.err :=
  ⟨(IgnoreErrTruncated_Exchange truncatedExchanger query "10.0.0.1:53" 0).2.2.2.1 rfl,
   (IgnoreErrTruncated_Exchange refusedExchanger query "10.0.0.1:53" 0).2.2.2.2.1
     (by decide)⟩

/-- C18. `Decorate(ex, d1, ..., dn)` is `dn(...(d2(d1(ex)))...)`: the
decorators are applied from left to right and the last one is outermost.
Without decorators `Decorate(ex)` is `ex`, and decorating with `ds` followed by
`es` is decorating with `es` the result of decorating with `ds`. -/
theorem Decorate_left_to_right {σ : Type} (ex : Exchanger σ) :
    Decorate ex [] = ex ∧
    (∀ ds : List (Decorator σ),
      Decorate ex ds = ds.reverse.foldr (fun d decorated => d decorated) ex) ∧
    (∀ (ds : List (Decorator σ)) (d : Decorator σ),
      Decorate ex (ds ++ [d]) = d (Decorate ex ds)) ∧
    (∀ d1 d2 d3 : Decorator σ, Decorate ex [d1, d2, d3] = d3 (d2 (d1 ex))) ∧
    (∀ ds es : List (Decorator σ), Decorate ex (ds ++ es) = Decorate (Decorate ex ds) es) := by
  refine ⟨rfl, fun ds => ?_, fun ds d => ?_, fun _ _ _ => rfl, fun ds es => ?_⟩
  · unfold Decorate
    rw [List.foldr_reverse]
  · unfold Decorate
    rw [List.foldl_append]
    rfl
  · unfold Decorate
    rw [List.foldl_append]

/-! ## `upstream_loader.go` -/

/-- When `Contains` finds the upstream of an event, `Get` finds an upstream
for its application ID: the pointer `u` of the loop body is never `nil`. -/
theorem Get_isSome_of_Contains (loader : UpstreamLoader) (upstream : Upstream)
    (h : loader.Contains upstream = true) : (loader.Get upstream.AppID).isSome = true := by
  simp only [UpstreamLoader.Contains, List.any_eq_true, Upstream.Equal,
    decide_eq_true_eq] at h
  obtain ⟨u, hu, he⟩ := h
  simp only [UpstreamLoader.Get, List.find?_isSome, decide_eq_true_eq]
  exact ⟨u, hu, by rw [he]⟩

/-- C14. The code at the failing input: the loader holds the upstream `a-b`
with target `t1` and receives the event `add` for application `a.b`, task
`t2`. `Contains` compares the IDs as they are and appends a second upstream;
`Get("a.b")` still finds the upstream `a-b`, which lacks `t2`; handling the
same event again adds `t2` to the upstream `a-b`, so the loader changes. -/
theorem add_twice_changes_loader :
    NewUpstreamLoader.Start [eventOf "add" "a-b" "t1" 1]
      = ⟨[⟨"a-b", [targetOf "a-b" "t1" 1]⟩]⟩ ∧
    (NewUpstreamLoader.Start [eventOf "add" "a-b" "t1" 1]).handle (eventOf "add" "a.b" "t2" 1)
      = ⟨[⟨"a-b", [targetOf "a-b" "t1" 1]⟩, ⟨"a.b", [targetOf "a.b" "t2" 1]⟩]⟩ ∧
    ((NewUpstreamLoader.Start [eventOf "add" "a-b" "t1" 1]).handle
        (eventOf "add" "a.b" "t2" 1)).Get "a.b"
      = some ⟨"a-b", [targetOf "a-b" "t1" 1]⟩ ∧
    ((NewUpstreamLoader.Start [eventOf "add" "a-b" "t1" 1]).handle
        (eventOf "add" "a.b" "t2" 1)).handle (eventOf "add" "a.b" "t2" 1)
      = ⟨[⟨"a-b", [targetOf "a-b" "t1" 1, targetOf "a.b" "t2" 1]⟩,
          ⟨"a.b", [targetOf "a.b" "t2" 1]⟩]⟩ := by
  decide

/-- C15. The code at the failing input: the loader holds the upstreams `a-b`
and `a.b`, each with the single target `t1`, and receives the event `del` for
application `a.b`, task `t1`. `Get("a.b")` finds the upstream `a-b` and the
target is removed from it; `RemoveUpstream` then cuts out the upstream `a.b`.
The emptied upstream `a-b` stays and `Get("a.b")` still finds it. With task
`t2` in the upstream `a.b` instead, the event `del` for `a.b`, `t2` changes
nothing. -/
theorem del_removes_other_upstream :
    NewUpstreamLoader.Start [eventOf "add" "a-b" "t1" 1, eventOf "add" "a.b" "t1" 1]
      = ⟨[⟨"a-b", [targetOf "a-b" "t1" 1]⟩, ⟨"a.b", [targetOf "a.b" "t1" 1]⟩]⟩ ∧
    (NewUpstreamLoader.Start [eventOf "add" "a-b" "t1" 1, eventOf "add" "a.b" "t1" 1]).handle
        (eventOf "del" "a.b" "t1" 1)
      = ⟨[⟨"a-b", []⟩]⟩ ∧
    ((NewUpstreamLoader.Start [eventOf "add" "a-b" "t1" 1, eventOf "add" "a.b" "t1" 1]).handle
        (eventOf "del" "a.b" "t1" 1)).Get "a.b"
      = some ⟨"a-b", []⟩ ∧
    (NewUpstreamLoader.Start [eventOf "add" "a-b" "t1" 1, eventOf "add" "a.b" "t2" 1]).handle
        (eventOf "del" "a.b" "t2" 1)
      = ⟨[⟨"a-b", [targetOf "a-b" "t1" 1]⟩, ⟨"a.b", [targetOf "a.b" "t2" 1]⟩]⟩ := by
  decide

/-- C16. The code at the failing input: the loader holds the upstream `app`
with target `t1` of weight 1 and receives an event whose `Change` is `update`
with weight 5. None of the three branches is taken and the weight stays 1;
the weight branch is taken for the value `change`, which sets the weight to
5. -/
theorem update_event_ignored :
    (NewUpstreamLoader.Start [eventOf "add" "app" "t1" 1]).handle
        (eventOf "update" "app" "t1" 5)
      = ⟨[⟨"app", [targetOf "app" "t1" 1]⟩]⟩ ∧
    (NewUpstreamLoader.Start [eventOf "add" "app" "t1" 1]).handle
        (eventOf "change" "app" "t1" 5)
      = ⟨[⟨"app", [targetOf "app" "t1" 5]⟩]⟩ := by
  decide

/-- C20. The code at the failing input: after the events `add a-b t1` and
`add a.b t1` the loader holds two upstreams with the same formatted
application ID, which `Get` cannot tell apart; after the further event
`del a.b t1` it holds an upstream with an empty target list. -/
theorem loader_invariant_broken :
    (NewUpstreamLoader.Start
        [eventOf "add" "a-b" "t1" 1, eventOf "add" "a.b" "t1" 1]).Upstreams.map
        (fun u => formattedAppId u.AppID)
      = ["a.b", "a.b"] ∧
    (NewUpstreamLoader.Start
        [eventOf "add" "a-b" "t1" 1, eventOf "add" "a.b" "t1" 1,
         eventOf "del" "a.b" "t1" 1]).Upstreams
      = [⟨"a-b", []⟩] := by
  decide

end Swan
